import Mathlib

/-!
# Verification of the process_triage manifest validation scripts

Shallow embedding of `scripts/fixture_capture.py`,
`scripts/validate_fixture_manifest.py`, `scripts/validate_e2e_manifest.py`
and `scripts/validate_capabilities_manifest.py`.

JSON documents are modelled by the inductive type `PT.JVal`; Python dicts
(which arise from `json.load` and from dict literals, hence have unique
keys in insertion order) are association lists `List (String × JVal)`.
Byte strings are `List Nat` (each entry a byte value).  The filesystem
seen by the validators is a function from resolved path strings to the
textual content of the file, `none` when the file does not exist.
Error accumulation (`errors.append(f"...")` in Python) is modelled by an
inductive type `PT.Err` with one constructor per distinct `append` site,
carrying the interpolated values; each constructor's doc comment records
the exact message format from the source.
-/

namespace PT

/-- JSON-compatible Python value (`None`/`bool`/`int`/`str`/`list`/`dict`).
Floats are not modelled; none of the manifests under test use them. -/
inductive JVal where
  | null : JVal
  | bool : Bool → JVal
  | int : Int → JVal
  | str : String → JVal
  | arr : List JVal → JVal
  | obj : List (String × JVal) → JVal
  deriving Repr

/-- Association lists standing for Python dicts. -/
abbrev JObj := List (String × JVal)

/-- Python `d.get(k)`: the binding of `k` (dicts never hold duplicate keys). -/
def jget (m : JObj) (k : String) : Option JVal := m.lookup k

/-- Python `d[k] = v` on a dict: update in place if the key exists, else
append (dict insertion-order semantics). -/
def dictInsert (m : JObj) (k : String) (v : JVal) : JObj :=
  match m with
  | [] => [(k, v)]
  | (k', v') :: rest =>
      if k' = k then (k', v) :: rest else (k', v') :: dictInsert rest k v

/-- Python `d.pop(k, None)`: the dict without key `k`. -/
def popKey (m : JObj) (k : String) : JObj :=
  m.filter (fun p => p.1 ≠ k)

/-- Python truthiness of a JSON value (`bool(x)`). -/
def jtruthy : JVal → Bool
  | .null => false
  | .bool b => b
  | .int n => n ≠ 0
  | .str s => s ≠ ""
  | .arr xs => !xs.isEmpty
  | .obj m => !m.isEmpty

/-- Structural induction for `JVal` through the nested lists. -/
theorem JVal.indOn {P : JVal → Prop}
    (hnull : P .null) (hbool : ∀ b, P (.bool b)) (hint : ∀ n, P (.int n))
    (hstr : ∀ s, P (.str s))
    (harr : ∀ xs, (∀ x ∈ xs, P x) → P (.arr xs))
    (hobj : ∀ m, (∀ p ∈ m, P p.2) → P (.obj m)) :
    ∀ v, P v := by
  intro v
  match v with
  | .null => exact hnull
  | .bool b => exact hbool b
  | .int n => exact hint n
  | .str s => exact hstr s
  | .arr xs =>
      refine harr xs (fun x hx => ?_)
      have hlt : sizeOf x < 1 + sizeOf xs := by
        have := List.sizeOf_lt_of_mem hx; omega
      exact JVal.indOn hnull hbool hint hstr harr hobj x
  | .obj m =>
      refine hobj m (fun p hp => ?_)
      have hlt : sizeOf p.2 < 1 + sizeOf m := by
        have h1 := List.sizeOf_lt_of_mem hp
        obtain ⟨k, v'⟩ := p
        simp only [Prod.mk.sizeOf_spec] at h1 ⊢
        omega
      exact JVal.indOn hnull hbool hint hstr harr hobj p.2
termination_by v => sizeOf v
decreasing_by
  · simp only [JVal.arr.sizeOf_spec]; exact hlt
  · simp only [JVal.obj.sizeOf_spec]; exact hlt

mutual

/-- Boolean structural equality on `JVal`. -/
def jeq : JVal → JVal → Bool
  | .null, .null => true
  | .bool a, .bool b => a == b
  | .int a, .int b => a == b
  | .str a, .str b => a == b
  | .arr a, .arr b => jeqL a b
  | .obj a, .obj b => jeqM a b
  | _, _ => false

/-- Pointwise `jeq` on lists. -/
def jeqL : List JVal → List JVal → Bool
  | [], [] => true
  | x :: xs, y :: ys => jeq x y && jeqL xs ys
  | _, _ => false

/-- Pointwise `jeq` on member lists. -/
def jeqM : List (String × JVal) → List (String × JVal) → Bool
  | [], [] => true
  | (k, v) :: xs, (l, w) :: ys => k == l && jeq v w && jeqM xs ys
  | _, _ => false

end

theorem jeqL_iff (xs : List JVal)
    (h : ∀ x ∈ xs, ∀ b, jeq x b = true ↔ x = b) :
    ∀ ys, jeqL xs ys = true ↔ xs = ys := by
  induction xs with
  | nil => intro ys; cases ys <;> simp [jeqL]
  | cons x xs ih =>
      intro ys
      cases ys with
      | nil => simp [jeqL]
      | cons y ys =>
          have hx := h x (by simp)
          have ihr := ih (fun z hz => h z (by simp [hz])) ys
          simp [jeqL, Bool.and_eq_true, hx, ihr]

theorem jeqM_iff (xs : List (String × JVal))
    (h : ∀ p ∈ xs, ∀ b, jeq p.2 b = true ↔ p.2 = b) :
    ∀ ys, jeqM xs ys = true ↔ xs = ys := by
  induction xs with
  | nil => intro ys; cases ys <;> simp [jeqM]
  | cons p xs ih =>
      intro ys
      obtain ⟨k, v⟩ := p
      cases ys with
      | nil => simp [jeqM]
      | cons q ys =>
          obtain ⟨l, w⟩ := q
          have hv := h (k, v) (by simp)
          have ihr := ih (fun z hz => h z (by simp [hz])) ys
          simp [jeqM, Bool.and_eq_true, hv, ihr, and_assoc]

theorem jeq_iff : ∀ a b, jeq a b = true ↔ a = b := by
  intro a
  induction a using JVal.indOn with
  | hnull => intro b; cases b <;> simp [jeq]
  | hbool x => intro b; cases b <;> simp [jeq]
  | hint x => intro b; cases b <;> simp [jeq]
  | hstr x => intro b; cases b <;> simp [jeq]
  | harr xs ih =>
      intro b
      have hL := jeqL_iff xs ih
      cases b <;> simp [jeq, hL]
  | hobj m ih =>
      intro b
      have hM := jeqM_iff m ih
      cases b <;> simp [jeq, hM]

instance : DecidableEq JVal := fun a b =>
  decidable_of_iff (jeq a b = true) (jeq_iff a b)

/-! ## SHA-256 (`hashlib.sha256(...).hexdigest()`)

Direct implementation of FIPS 180-4 over byte lists, with 32-bit words
represented as `Nat` reduced modulo `2^32`.  `sha256_file` in the source
streams the file in 1 MiB chunks; the digest of the streamed read equals
the digest of the whole content, so the model hashes the content
directly. -/

/-- The constant 2^32. -/
def M32 : Nat := 4294967296

/-- Addition modulo 2^32. -/
def add32 (a b : Nat) : Nat := (a + b) % M32

/-- Right rotation of a 32-bit word. -/
def rotr32 (x n : Nat) : Nat := ((x >>> n) ||| (x <<< (32 - n))) % M32

/-- SHA-256 Ch function. -/
def shaCh (x y z : Nat) : Nat := (x &&& y) ^^^ ((x ^^^ (M32 - 1)) &&& z)

/-- SHA-256 Maj function. -/
def shaMaj (x y z : Nat) : Nat := (x &&& y) ^^^ (x &&& z) ^^^ (y &&& z)

/-- SHA-256 big sigma 0. -/
def bsig0 (x : Nat) : Nat := rotr32 x 2 ^^^ rotr32 x 13 ^^^ rotr32 x 22

/-- SHA-256 big sigma 1. -/
def bsig1 (x : Nat) : Nat := rotr32 x 6 ^^^ rotr32 x 11 ^^^ rotr32 x 25

/-- SHA-256 small sigma 0. -/
def ssig0 (x : Nat) : Nat := rotr32 x 7 ^^^ rotr32 x 18 ^^^ (x >>> 3)

/-- SHA-256 small sigma 1. -/
def ssig1 (x : Nat) : Nat := rotr32 x 17 ^^^ rotr32 x 19 ^^^ (x >>> 10)

/-- The 64 SHA-256 round constants. -/
def K256 : List Nat :=
  [1116352408, 1899447441, 3049323471, 3921009573, 961987163,
   1508970993, 2453635748, 2870763221, 3624381080, 310598401,
   607225278, 1426881987, 1925078388, 2162078206, 2614888103,
   3248222580, 3835390401, 4022224774, 264347078, 604807628,
   770255983, 1249150122, 1555081692, 1996064986, 2554220882,
   2821834349, 2952996808, 3210313671, 3336571891, 3584528711,
   113926993, 338241895, 666307205, 773529912, 1294757372,
   1396182291, 1695183700, 1986661051, 2177026350, 2456956037,
   2730485921, 2820302411, 3259730800, 3345764771, 3516065817,
   3600352804, 4094571909, 275423344, 430227734, 506948616,
   659060556, 883997877, 958139571, 1322822218, 1537002063,
   1747873779, 1955562222, 2024104815, 2227730452, 2361852424,
   2428436474, 2756734187, 3204031479, 3329325298]

/-- The eight SHA-256 working/hash values. -/
structure SHAState where
  a : Nat
  b : Nat
  c : Nat
  d : Nat
  e : Nat
  f : Nat
  g : Nat
  h : Nat
  deriving Repr, DecidableEq

/-- SHA-256 initial hash value. -/
def shaH0 : SHAState :=
  ⟨1779033703, 3144134277, 1013904242, 2773480762,
   1359893119, 2600822924, 528734635, 1541459225⟩

/-- Big-endian byte expansion of the 64-bit message bit length. -/
def lenBytes8 (n : Nat) : List Nat :=
  [(n >>> 56) % 256, (n >>> 48) % 256, (n >>> 40) % 256, (n >>> 32) % 256,
   (n >>> 24) % 256, (n >>> 16) % 256, (n >>> 8) % 256, n % 256]

/-- SHA-256 padding: append `0x80`, zeros to 56 mod 64, then the bit length. -/
def sha256Pad (msg : List Nat) : List Nat :=
  let L := msg.length
  let z := (119 - (L % 64)) % 64
  msg ++ [128] ++ List.replicate z 0 ++ lenBytes8 (8 * L)

/-- Fuel-driven 64-byte chunking (fuel bounds the number of chunks). -/
def chunk64F : Nat → List Nat → List (List Nat)
  | 0, _ => []
  | _ + 1, [] => []
  | n + 1, x :: rest => ((x :: rest).take 64) :: chunk64F n ((x :: rest).drop 64)

/-- Split a byte list into 64-byte blocks. -/
def chunk64 (l : List Nat) : List (List Nat) := chunk64F l.length l

/-- Assemble big-endian 32-bit words from bytes. -/
def toWords : List Nat → List Nat
  | b0 :: b1 :: b2 :: b3 :: rest =>
      (((b0 * 256 + b1) * 256 + b2) * 256 + b3) :: toWords rest
  | _ => []

/-- Extend the 16 block words to the 64-entry message schedule. -/
def extendW : Nat → List Nat → List Nat
  | 0, w => w
  | n + 1, w =>
      let len := w.length
      let wNew := add32 (add32 (ssig1 (w.getD (len - 2) 0)) (w.getD (len - 7) 0))
        (add32 (ssig0 (w.getD (len - 15) 0)) (w.getD (len - 16) 0))
      extendW n (w ++ [wNew])

/-- One SHA-256 round. -/
def shaRound (st : SHAState) (kw : Nat × Nat) : SHAState :=
  let t1 := (st.h + bsig1 st.e + shaCh st.e st.f st.g + kw.1 + kw.2) % M32
  let t2 := (bsig0 st.a + shaMaj st.a st.b st.c) % M32
  ⟨(t1 + t2) % M32, st.a, st.b, st.c, (st.d + t1) % M32, st.e, st.f, st.g⟩

/-- Process one 64-byte block. -/
def compressBlock (h : SHAState) (block : List Nat) : SHAState :=
  let w := extendW 48 (toWords block)
  let fin := (K256.zip w).foldl shaRound h
  ⟨add32 h.a fin.a, add32 h.b fin.b, add32 h.c fin.c, add32 h.d fin.d,
   add32 h.e fin.e, add32 h.f fin.f, add32 h.g fin.g, add32 h.h fin.h⟩

/-- The SHA-256 state after hashing a whole message. -/
def sha256Digest (msg : List Nat) : SHAState :=
  (chunk64 (sha256Pad msg)).foldl compressBlock shaH0

/-- Lowercase hexadecimal digit. -/
def hexChar : Nat → Char
  | 0 => '0' | 1 => '1' | 2 => '2' | 3 => '3' | 4 => '4'
  | 5 => '5' | 6 => '6' | 7 => '7' | 8 => '8' | 9 => '9'
  | 10 => 'a' | 11 => 'b' | 12 => 'c' | 13 => 'd' | 14 => 'e'
  | 15 => 'f' | _ => '0'

/-- Eight lowercase hex digits of a 32-bit word, most significant first. -/
def word2hex (v : Nat) : List Char :=
  [hexChar ((v >>> 28) % 16), hexChar ((v >>> 24) % 16),
   hexChar ((v >>> 20) % 16), hexChar ((v >>> 16) % 16),
   hexChar ((v >>> 12) % 16), hexChar ((v >>> 8) % 16),
   hexChar ((v >>> 4) % 16), hexChar (v % 16)]

/-- Model of `sha256_bytes(data)` from the validator scripts:
`hashlib.sha256(data).hexdigest()`, a 64-character lowercase hex string. -/
def sha256_bytes (data : List Nat) : String :=
  let s := sha256Digest data
  String.mk (word2hex s.a ++ word2hex s.b ++ word2hex s.c ++ word2hex s.d ++
    word2hex s.e ++ word2hex s.f ++ word2hex s.g ++ word2hex s.h)

example : sha256_bytes [] =
    "e3b0c44298fc1c149afbf4c8996fb92427ae41e4649b934ca495991b7852b855" := by
  decide

example : sha256_bytes [97, 98, 99] =
    "ba7816bf8f01cfea414140de5dae2223b00361a396177a9cb410ff61f20015ad" := by
  decide

/-! ## Canonical JSON serialization (`canonical_manifest_bytes`)

The three scripts share one definition:
`json.dumps(clone, sort_keys=True, separators=(",", ":"), ensure_ascii=False)`
encoded as UTF-8, after `clone.pop("manifest_sha256", None)`.  Python's
`sort_keys` orders keys by `str <`, i.e. lexicographically by code
point. -/

/-- Lexicographic (code-point) order on character lists, Python `str <=`. -/
def charListLe : List Char → List Char → Bool
  | [], _ => true
  | _ :: _, [] => false
  | a :: as, b :: bs =>
      if a.toNat < b.toNat then true
      else if b.toNat < a.toNat then false
      else charListLe as bs

/-- Python string comparison `a <= b`. -/
def strLeB (a b : String) : Bool := charListLe a.data b.data

theorem charListLe_total : ∀ as bs, charListLe as bs = true ∨ charListLe bs as = true
  | [], _ => by left; simp [charListLe]
  | _ :: _, [] => by right; simp [charListLe]
  | a :: as, b :: bs => by
      by_cases h1 : a.toNat < b.toNat
      · left; simp [charListLe, h1]
      · by_cases h2 : b.toNat < a.toNat
        · right; simp [charListLe, h1, h2]
        · have := charListLe_total as bs
          rcases this with h | h
          · left; simp [charListLe, h1, h2, h]
          · right; simp [charListLe, h1, h2, h]

theorem charListLe_trans : ∀ as bs cs, charListLe as bs = true →
    charListLe bs cs = true → charListLe as cs = true
  | [], _, _ => by intro _ _; simp [charListLe]
  | _ :: _, [], _ => by intro h; simp [charListLe] at h
  | _ :: _, _ :: _, [] => by intro _ h; simp [charListLe] at h
  | a :: as, b :: bs, c :: cs => by
      intro h1 h2
      simp only [charListLe] at h1 h2 ⊢
      split_ifs at h1 h2 ⊢ <;> try omega
      all_goals try rfl
      all_goals try exact charListLe_trans as bs cs h1 h2
      all_goals simp_all

theorem char_toNat_inj {a b : Char} (h : a.toNat = b.toNat) : a = b := by
  have := Char.ofNat_toNat a
  rw [h, Char.ofNat_toNat b] at this
  exact this.symm

theorem charListLe_antisymm : ∀ as bs, charListLe as bs = true →
    charListLe bs as = true → as = bs
  | [], [] => by intro _ _; rfl
  | [], _ :: _ => by intro _ h; simp [charListLe] at h
  | _ :: _, [] => by intro h; simp [charListLe] at h
  | a :: as, b :: bs => by
      intro h1 h2
      simp only [charListLe] at h1 h2
      split_ifs at h1 h2 <;> try omega
      all_goals try simp_all
      have hc : a = b := char_toNat_inj (by omega)
      have := charListLe_antisymm as bs h1 h2
      simp [hc, this]

/-- Key order used by `sort_keys=True` on member pairs. -/
def keyLe {α : Type} (p q : String × α) : Prop := strLeB p.1 q.1 = true

instance {α : Type} : DecidableRel (keyLe (α := α)) := fun p q =>
  inferInstanceAs (Decidable (strLeB p.1 q.1 = true))

instance {α : Type} : IsTotal (String × α) keyLe :=
  ⟨fun p q => charListLe_total p.1.data q.1.data⟩

instance {α : Type} : IsTrans (String × α) keyLe :=
  ⟨fun _ _ _ h1 h2 => charListLe_trans _ _ _ h1 h2⟩

/-- Key order strengthened with key distinctness (antisymmetric, used to
identify equal sorted member lists). -/
def keyLeNe {α : Type} (p q : String × α) : Prop := keyLe p q ∧ p.1 ≠ q.1

theorem strLeB_antisymm {a b : String} (h1 : strLeB a b = true)
    (h2 : strLeB b a = true) : a = b := by
  have hdata := charListLe_antisymm a.data b.data h1 h2
  cases a; cases b
  exact congrArg String.mk (by simpa using hdata)

instance {α : Type} : IsAntisymm (String × α) keyLeNe :=
  ⟨fun p q h1 h2 => (h1.2 (strLeB_antisymm h1.1 h2.1)).elim⟩

/-- UTF-8 encoding of one character. -/
def utf8Char (c : Char) : List Nat :=
  let n := c.toNat
  if n < 128 then [n]
  else if n < 2048 then [192 + n / 64, 128 + n % 64]
  else if n < 65536 then [224 + n / 4096, 128 + (n / 64) % 64, 128 + n % 64]
  else [240 + n / 262144, 128 + (n / 4096) % 64, 128 + (n / 64) % 64, 128 + n % 64]

/-- UTF-8 encoding of a string (Python `str.encode("utf-8")`). -/
def utf8Encode (s : String) : List Nat := s.data.flatMap utf8Char

/-- JSON string escaping of one character as `json.dumps(..., ensure_ascii=False)`
performs it: only the two structural characters and control characters are
escaped; everything else (including non-ASCII) passes through. -/
def jsonEscapeChar (c : Char) : String :=
  if c = '"' then "\\\""
  else if c = '\\' then "\\\\"
  else if c = '\n' then "\\n"
  else if c = '\r' then "\\r"
  else if c = '\t' then "\\t"
  else if c.toNat = 8 then "\\b"
  else if c.toNat = 12 then "\\f"
  else if c.toNat < 32 then
    String.mk ['\\', 'u', '0', '0', hexChar (c.toNat / 16), hexChar (c.toNat % 16)]
  else String.mk [c]

/-- JSON quoted string. -/
def jsonQuote (s : String) : String :=
  "\"" ++ String.join (s.data.map jsonEscapeChar) ++ "\""

/-- Rendering of one object member from its key and serialized value,
with the `":"` separator of `separators=(",", ":")`. -/
def memberStr (p : String × String) : String := jsonQuote p.1 ++ ":" ++ p.2

mutual

/-- Model of `json.dumps(v, sort_keys=True, separators=(",", ":"),
ensure_ascii=False)`.  Members are serialized first and the rendered
pairs sorted by key; since the sort compares keys only, this produces
the same text as sorting the items and then serializing. -/
def ser : JVal → String
  | .null => "null"
  | .bool true => "true"
  | .bool false => "false"
  | .int n => toString n
  | .str s => jsonQuote s
  | .arr xs => "[" ++ String.intercalate "," (serL xs) ++ "]"
  | .obj m =>
      "\x7b" ++
        String.intercalate "," ((List.insertionSort keyLe (serM m)).map memberStr) ++
      "\x7d"

/-- Serialization of array elements. -/
def serL : List JVal → List String
  | [] => []
  | x :: xs => ser x :: serL xs

/-- Keys paired with serialized values. -/
def serM : List (String × JVal) → List (String × String)
  | [] => []
  | (k, v) :: rest => (k, ser v) :: serM rest

end

mutual

/-- Normal form of a document: every object's members sorted by key.
Two documents hold the same key-to-value mappings at every nesting
level, independent of insertion order, exactly when their normal forms
are equal. -/
def normalize : JVal → JVal
  | .null => .null
  | .bool b => .bool b
  | .int n => .int n
  | .str s => .str s
  | .arr xs => .arr (normL xs)
  | .obj m => .obj (List.insertionSort keyLe (normM m))

/-- Normalization of array elements. -/
def normL : List JVal → List JVal
  | [] => []
  | x :: xs => normalize x :: normL xs

/-- Normalization of object members. -/
def normM : List (String × JVal) → List (String × JVal)
  | [] => []
  | (k, v) :: rest => (k, normalize v) :: normM rest

end

theorem serL_eq_map : ∀ xs, serL xs = xs.map ser
  | [] => rfl
  | x :: xs => by simp [serL, serL_eq_map xs]

theorem serM_eq_map : ∀ m, serM m = m.map (fun p => (p.1, ser p.2))
  | [] => rfl
  | (k, v) :: m => by simp [serM, serM_eq_map m]

theorem normL_eq_map : ∀ xs, normL xs = xs.map normalize
  | [] => rfl
  | x :: xs => by simp [normL, normL_eq_map xs]

theorem normM_eq_map : ∀ m, normM m = m.map (fun p => (p.1, normalize p.2))
  | [] => rfl
  | (k, v) :: m => by simp [normM, normM_eq_map m]

theorem ser_normalize : ∀ v, ser (normalize v) = ser v := by
  intro v
  induction v using JVal.indOn with
  | hnull => rfl
  | hbool b => cases b <;> rfl
  | hint n => rfl
  | hstr s => rfl
  | harr xs ih =>
      simp only [normalize, ser, serL_eq_map, normL_eq_map, List.map_map]
      have hm : List.map (ser ∘ normalize) xs = List.map ser xs :=
        List.map_congr_left (fun x hx => by
          simp only [Function.comp_apply]; exact ih x hx)
      rw [hm]
  | hobj m ih =>
      simp only [normalize, ser, serM_eq_map, normM_eq_map]
      rw [List.map_insertionSort (@keyLe JVal) (@keyLe String)
        (fun p : String × JVal => (p.1, ser p.2))
        (List.map (fun p : String × JVal => (p.1, normalize p.2)) m)
        (fun a _ b _ => Iff.rfl), List.map_map]
      have hmaps : m.map ((fun p : String × JVal => (p.1, ser p.2)) ∘
          fun p : String × JVal => (p.1, normalize p.2)) =
          m.map (fun p : String × JVal => (p.1, ser p.2)) :=
        List.map_congr_left (fun p hp => by
          show (p.1, ser (normalize p.2)) = (p.1, ser p.2)
          exact congrArg (Prod.mk p.1) (ih p hp))
      rw [hmaps]
      rw [List.Sorted.insertionSort_eq
        (List.sorted_insertionSort keyLe
          (m.map (fun p : String × JVal => (p.1, ser p.2))))]

/-- Model of `canonical_manifest_bytes(manifest)`, identical in
`fixture_capture.py`, `validate_fixture_manifest.py` and
`validate_e2e_manifest.py`: copy, `pop("manifest_sha256", None)`,
`json.dumps(..., sort_keys=True, separators=(",", ":"),
ensure_ascii=False)`, `.encode("utf-8")`. -/
def canonical_manifest_bytes (manifest : JObj) : List Nat :=
  utf8Encode (ser (.obj (popKey manifest "manifest_sha256")))

example : canonical_manifest_bytes
    [("b", .int 1), ("a", .str "x\nü"), ("manifest_sha256", .str "z")] =
    [123, 34, 97, 34, 58, 34, 120, 92, 110, 195, 188, 34, 44, 34, 98, 34,
     58, 49, 125] := by decide

theorem popKey_normM (m : JObj) (k : String) :
    normM (popKey m k) = (normM m).filter (fun p => p.1 ≠ k) := by
  induction m with
  | nil => rfl
  | cons p rest ih =>
      obtain ⟨key, v⟩ := p
      by_cases hk : key = k <;>
        simp [popKey, normM, List.filter_cons, hk] at ih ⊢ <;>
        exact ih

theorem keys_normM (m : JObj) :
    (normM m).map Prod.fst = m.map Prod.fst := by
  rw [normM_eq_map, List.map_map]
  rfl

theorem sorted_keyLeNe_insertionSort {l : JObj}
    (hnd : (l.map Prod.fst).Nodup) :
    List.Sorted keyLeNe (List.insertionSort keyLe l) := by
  have hs : List.Sorted keyLe (List.insertionSort keyLe l) :=
    List.sorted_insertionSort keyLe l
  have hnd' : ((List.insertionSort keyLe l).map Prod.fst).Nodup := by
    have hp : List.Perm ((List.insertionSort keyLe l).map Prod.fst)
        (l.map Prod.fst) :=
      (List.perm_insertionSort keyLe l).map Prod.fst
    exact hp.nodup_iff.mpr hnd
  have hne : (List.insertionSort keyLe l).Pairwise
      (fun p q : String × JVal => p.1 ≠ q.1) := by
    rw [List.Nodup, List.pairwise_map] at hnd'
    exact hnd'
  exact hs.and hne

/-- C2: canonicalization is independent of member insertion order.
The `manifest_sha256` key is excluded from the canonical bytes whatever
its value, and any two manifest documents with the same key-to-value
mappings at every nesting level — captured as equality of key-sorted
normal forms — produce byte-identical canonical output; keys at every
level are emitted in lexicographic order with separators exactly `,`
and `:` and the result is UTF-8 with non-ASCII characters unescaped
(by the definitions of `ser` and `utf8Encode`). -/
theorem claim_C2_key_order_independence :
    (∀ (m : JObj) (v : JVal),
      canonical_manifest_bytes (("manifest_sha256", v) :: m) =
        canonical_manifest_bytes m) ∧
    (∀ a b : JObj, (a.map Prod.fst).Nodup → (b.map Prod.fst).Nodup →
      normalize (.obj a) = normalize (.obj b) →
      canonical_manifest_bytes a = canonical_manifest_bytes b) := by
  constructor
  · intro m v
    simp [canonical_manifest_bytes, popKey, List.filter_cons]
  · intro a b ha hb h
    simp only [normalize, JVal.obj.injEq] at h
    have hperm : List.Perm (normM a) (normM b) := by
      have p1 := List.perm_insertionSort keyLe (normM a)
      have p2 := List.perm_insertionSort keyLe (normM b)
      rw [h] at p1
      exact p1.symm.trans p2
    have hpermF : List.Perm
        ((normM a).filter (fun p => p.1 ≠ "manifest_sha256"))
        ((normM b).filter (fun p => p.1 ≠ "manifest_sha256")) :=
      hperm.filter _
    have hsortPerm : List.Perm
        (List.insertionSort keyLe
          ((normM a).filter (fun p => p.1 ≠ "manifest_sha256")))
        (List.insertionSort keyLe
          ((normM b).filter (fun p => p.1 ≠ "manifest_sha256"))) :=
      ((List.perm_insertionSort keyLe _).trans hpermF).trans
        (List.perm_insertionSort keyLe _).symm
    have hndA : (((normM a).filter
        (fun p => p.1 ≠ "manifest_sha256")).map Prod.fst).Nodup := by
      have hsub : List.Sublist
          (((normM a).filter
            (fun p => p.1 ≠ "manifest_sha256")).map Prod.fst)
          ((normM a).map Prod.fst) :=
        (List.filter_sublist (normM a)).map Prod.fst
      rw [keys_normM] at hsub
      exact ha.sublist hsub
    have hndB : (((normM b).filter
        (fun p => p.1 ≠ "manifest_sha256")).map Prod.fst).Nodup := by
      have hsub : List.Sublist
          (((normM b).filter
            (fun p => p.1 ≠ "manifest_sha256")).map Prod.fst)
          ((normM b).map Prod.fst) :=
        (List.filter_sublist (normM b)).map Prod.fst
      rw [keys_normM] at hsub
      exact hb.sublist hsub
    unfold canonical_manifest_bytes
    congr 1
    rw [← ser_normalize (JVal.obj (popKey a "manifest_sha256")),
      ← ser_normalize (JVal.obj (popKey b "manifest_sha256"))]
    simp only [normalize]
    have heq : List.insertionSort keyLe (normM (popKey a "manifest_sha256")) =
        List.insertionSort keyLe (normM (popKey b "manifest_sha256")) := by
      rw [popKey_normM, popKey_normM]
      exact List.eq_of_perm_of_sorted hsortPerm
        (sorted_keyLeNe_insertionSort hndA)
        (sorted_keyLeNe_insertionSort hndB)
    rw [heq]

/-- Witness for C2 at concrete reordered documents. -/
theorem claim_C2_witness :
    canonical_manifest_bytes
        [("b", .int 1), ("a", .str "x"), ("manifest_sha256", .str "z")] =
      canonical_manifest_bytes
        [("manifest_sha256", .str "z"), ("a", .str "x"), ("b", .int 1)] :=
  claim_C2_key_order_independence.2 _ _ (by decide) (by decide) (by decide)

/-! ## Redaction patterns

The three regexes shared verbatim by `fixture_capture.py` and
`validate_fixture_manifest.py`:

* `HOME_RE = /(Users|home)/[^/]+`
* `UUID_RE = \b hex8-hex4-hex4-hex4-hex12 \b` (case-insensitive)
* `HEX_RE  = \b [0-9a-f]{32,} \b` (case-insensitive)

`search` is modelled as existence of a match at some position.  Word
boundaries are modelled over the ASCII word characters `[A-Za-z0-9_]`
(Python's default is the Unicode word class; every string the scripts
scan and every input in the claims is ASCII). -/

/-- ASCII word character for the `\b` boundary. -/
def isWordChar (c : Char) : Bool := c.isAlphanum || c = '_'

/-- Case-insensitive hex digit `[0-9a-fA-F]`. -/
def isHexDigitCI (c : Char) : Bool :=
  c.isDigit || (97 ≤ c.toNat && c.toNat ≤ 102) || (65 ≤ c.toNat && c.toNat ≤ 70)

/-- Length of the leading run of non-`/` characters (greedy `[^/]+`). -/
def countNonSlash : List Char → Nat
  | [] => 0
  | c :: rest => if c = '/' then 0 else 1 + countNonSlash rest

/-- Length of a `HOME_RE` match starting at this position, if any. -/
def homeMatchLen (l : List Char) : Option Nat :=
  if l.take 7 = "/Users/".data then
    let k := countNonSlash (l.drop 7)
    if 0 < k then some (7 + k) else none
  else if l.take 6 = "/home/".data then
    let k := countNonSlash (l.drop 6)
    if 0 < k then some (6 + k) else none
  else none

/-- Existence of a `HOME_RE` match at any position. -/
def homeSearchAux : List Char → Bool
  | [] => false
  | c :: rest => (homeMatchLen (c :: rest)).isSome || homeSearchAux rest

/-- Model of `HOME_RE.search(value) is not None`. -/
def homeSearch (s : String) : Bool := homeSearchAux s.data

/-- Consume exactly `n` hex digits. -/
def takeHexN : Nat → List Char → Option (List Char)
  | 0, l => some l
  | _ + 1, [] => none
  | n + 1, c :: rest => if isHexDigitCI c then takeHexN n rest else none

/-- Consume the `8-4-4-4-12` UUID shape, returning the remainder. -/
def uuidShape (l : List Char) : Option (List Char) :=
  (takeHexN 8 l).bind fun l1 =>
    match l1 with
    | '-' :: l2 =>
        (takeHexN 4 l2).bind fun l3 =>
          match l3 with
          | '-' :: l4 =>
              (takeHexN 4 l4).bind fun l5 =>
                match l5 with
                | '-' :: l6 =>
                    (takeHexN 4 l6).bind fun l7 =>
                      match l7 with
                      | '-' :: l8 => takeHexN 12 l8
                      | _ => none
                | _ => none
          | _ => none
    | _ => none

/-- The boundary before a match: start of string or a non-word character. -/
def boundaryOk : Option Char → Bool
  | none => true
  | some c => !isWordChar c

/-- The boundary after a match: end of string or a non-word character. -/
def afterOk : List Char → Bool
  | [] => true
  | c :: _ => !isWordChar c

/-- A `UUID_RE` match starting at this position (`prev` is the character
before the position, `none` at the start of the string). -/
def uuidMatchAt (prev : Option Char) (l : List Char) : Bool :=
  boundaryOk prev &&
    match uuidShape l with
    | some rest => afterOk rest
    | none => false

/-- Existence of a `UUID_RE` match at any position. -/
def uuidSearchAux (prev : Option Char) : List Char → Bool
  | [] => false
  | c :: rest => uuidMatchAt prev (c :: rest) || uuidSearchAux (some c) rest

/-- Model of `UUID_RE.search(value) is not None`. -/
def uuidSearch (s : String) : Bool := uuidSearchAux none s.data

/-- Length of the leading run of hex digits. -/
def countHex : List Char → Nat
  | [] => 0
  | c :: rest => if isHexDigitCI c then 1 + countHex rest else 0

/-- A `HEX_RE` match starting at this position.  `[0-9a-f]{32,}\b` can
only match by consuming the whole maximal hex run: every shorter stop
lies between two hex digits, where `\b` fails, so the run must have
length at least 32 and be followed by a boundary. -/
def hexMatchAt (prev : Option Char) (l : List Char) : Bool :=
  boundaryOk prev &&
    (let n := countHex l
     32 ≤ n && afterOk (l.drop n))

/-- Existence of a `HEX_RE` match at any position. -/
def hexSearchAux (prev : Option Char) : List Char → Bool
  | [] => false
  | c :: rest => hexMatchAt prev (c :: rest) || hexSearchAux (some c) rest

/-- Model of `HEX_RE.search(value) is not None`. -/
def hexSearch (s : String) : Bool := hexSearchAux none s.data

namespace Capture

/-- Fuel-driven model of `HOME_RE.sub("/home/USER", value)`: replace each
leftmost non-overlapping match, scanning left to right.  The fuel is the
input length, which suffices because every step consumes at least one
character. -/
def homeSubAux : Nat → List Char → List Char
  | 0, _ => []
  | _ + 1, [] => []
  | fuel + 1, c :: rest =>
      match homeMatchLen (c :: rest) with
      | some n => "/home/USER".data ++ homeSubAux fuel ((c :: rest).drop n)
      | none => c :: homeSubAux fuel rest

/-- Model of `redact_path(value)` from `fixture_capture.py`. -/
def redact_path (s : String) : String :=
  String.mk (homeSubAux s.data.length s.data)

/-- Model of `UUID_RE.sub("<UUID>", value)`.  Scanning continues in the
original text after each match, so the previous character for the next
boundary test is the last character of the matched region (a hex
digit). -/
def uuidSubAux : Nat → Option Char → List Char → List Char
  | 0, _, _ => []
  | _ + 1, _, [] => []
  | fuel + 1, prev, c :: rest =>
      if uuidMatchAt prev (c :: rest) then
        "<UUID>".data ++
          uuidSubAux fuel (some ((c :: rest).getD 35 'f')) ((c :: rest).drop 36)
      else c :: uuidSubAux fuel (some c) rest

/-- Model of the UUID substitution pass of `redact_id`. -/
def uuidSub (s : String) : String :=
  String.mk (uuidSubAux s.data.length none s.data)

/-- Model of `HEX_RE.sub("<HEX>", value)`. -/
def hexSubAux : Nat → Option Char → List Char → List Char
  | 0, _, _ => []
  | _ + 1, _, [] => []
  | fuel + 1, prev, c :: rest =>
      if hexMatchAt prev (c :: rest) then
        let n := countHex (c :: rest)
        "<HEX>".data ++
          hexSubAux fuel (some ((c :: rest).getD (n - 1) 'f')) ((c :: rest).drop n)
      else c :: hexSubAux fuel (some c) rest

/-- Model of the hex substitution pass of `redact_id`. -/
def hexSub (s : String) : String :=
  String.mk (hexSubAux s.data.length none s.data)

/-- Model of `redact_id(value)`: UUID substitution, then hex. -/
def redact_id (s : String) : String := hexSub (uuidSub s)

/-- Model of `redact_cmdline(value)`: paths, then identifiers. -/
def redact_cmdline (s : String) : String := redact_id (redact_path s)

/-- Model of `redact_values(values)`. -/
def redact_values (values : List String) : List String :=
  values.map redact_cmdline

end Capture

example : homeSearch "/Users/alice/project" = true := by decide
example : Capture.redact_path "/Users/alice/project" = "/home/USER/project" := by
  decide
example : homeSearch "/home/USER/project" = true := by decide
example : uuidSearch "id 123e4567-e89b-12d3-a456-426614174000 end" = true := by
  decide
example : Capture.redact_id "id 123e4567-e89b-12d3-a456-426614174000 end" =
    "id <UUID> end" := by decide
example : uuidSearch "id <UUID> end" = false := by decide
example : hexSearch "x 0123456789abcdef0123456789abcdef y" = true := by decide
example : hexSearch "x 0123456789abcdef0123456789abcdefg y" = false := by decide
example : Capture.redact_id "x 0123456789abcdef0123456789abcdef y" =
    "x <HEX> y" := by decide

/-! ## Validation errors

Python accumulates error strings; each distinct `errors.append(f"...")`
site becomes one constructor carrying the interpolated values.  The doc
comment of each constructor records the exact message format. -/

set_option maxHeartbeats 1600000 in
/-- One validation error.  Constructors are grouped by script. -/
inductive Err where
  /-- The message `missing required field: {field}` (all validators). -/
  | missingField (field : String) : Err
  /-- The message `schema_version not semver: {version}` (all validators). -/
  | versionNotSemver (version : String) : Err
  /-- The message `unsupported schema_version major: {version}` (all validators). -/
  | versionUnsupportedMajor (version : String) : Err
  /-- The message `schema_version must be string` (all validators). -/
  | schemaVersionMustBeString : Err
  /-- The message `fixture_id must be string`. -/
  | fixtureIdMustBeString : Err
  /-- The message `domain must be string`. -/
  | domainMustBeString : Err
  /-- The message `capture_time must be RFC3339 timestamp`. -/
  | captureTimeNotRfc3339 : Err
  /-- The message `capture_time must be string`. -/
  | captureTimeMustBeString : Err
  /-- The message `source must be object`. -/
  | sourceMustBeObject : Err
  /-- The message `source.origin must be string`. -/
  | sourceOriginMustBeString : Err
  /-- The message `source.{key} must be list`. -/
  | sourceListMustBeList (key : String) : Err
  /-- The message `source.{key}[{idx}] must be string`. -/
  | sourceItemMustBeString (key : String) (idx : Nat) : Err
  /-- The message `{label} contains unredacted home path`. -/
  | unredactedHome (label : String) : Err
  /-- The message `{label} contains unredacted UUID`. -/
  | unredactedUuid (label : String) : Err
  /-- The message `{label} contains unredacted hex id`. -/
  | unredactedHex (label : String) : Err
  /-- The message `source.notes must be string`. -/
  | sourceNotesMustBeString : Err
  /-- The message `tool_versions keys must be strings`. -/
  | toolVersionsKeysMustBeStrings : Err
  /-- The message `tool_versions.{key} must be string`. -/
  | toolVersionValueMustBeString (key : String) : Err
  /-- The message `tool_versions must be object`. -/
  | toolVersionsMustBeObject : Err
  /-- The message `redaction_profile must be one of minimal/safe/forensic/custom`. -/
  | redactionProfileInvalid : Err
  /-- The message `artifact entry must be object` (fixture and e2e validators). -/
  | artifactEntryMustBeObject : Err
  /-- The message `artifact entry missing path`. -/
  | artifactMissingPath : Err
  /-- The message `artifact file missing: {path}` (resolved path). -/
  | artifactFileMissing (path : String) : Err
  /-- The message `artifact bytes missing for {path_value}`. -/
  | artifactBytesMissing (pathValue : String) : Err
  /-- The message `artifact bytes mismatch for {path_value}: expected {e}, got {a}`. -/
  | artifactBytesMismatch (pathValue : String) (expected : Int) (actual : Nat) : Err
  /-- The message `artifact sha256 invalid for {path_value}`. -/
  | artifactShaInvalid (pathValue : String) : Err
  /-- The message `artifact sha256 mismatch for {path_value}: expected {e}, got {a}`. -/
  | artifactShaMismatch (pathValue expected actual : String) : Err
  /-- The message `artifact redaction_profile invalid for {path_value}`. -/
  | artifactProfileInvalid (pathValue : String) : Err
  /-- The message `artifacts must be non-empty list`. -/
  | artifactsMustBeNonEmptyList : Err
  /-- The message `manifest_sha256 mismatch` (fixture validator). -/
  | fixtureShaMismatch : Err
  /-- The message `manifest_sha256 must be sha256 hex` (fixture validator). -/
  | fixtureShaMustBeHex : Err
  /-- The message `run_id must be string`. -/
  | runIdMustBeString : Err
  /-- The message `suite must be string`. -/
  | suiteMustBeString : Err
  /-- The message `test_id must be string`. -/
  | testIdMustBeString : Err
  /-- The message `timestamp not RFC3339`. -/
  | timestampNotRfc3339 : Err
  /-- The message `timestamp must be string`. -/
  | timestampMustBeString : Err
  /-- The message `env.{field} must be string`. -/
  | envFieldMustBeString (field : String) : Err
  /-- The message `env must be object`. -/
  | envMustBeObject : Err
  /-- The message `manifest_sha256 not sha256 hex` (e2e validator). -/
  | e2eShaNotHex : Err
  /-- The message `manifest_sha256 mismatch: expected {stored}, got {computed}` (e2e). -/
  | e2eShaMismatch (expected got : String) : Err
  /-- The message `manifest_sha256 must be string` (e2e validator). -/
  | e2eShaMustBeString : Err
  /-- The message `commands[{idx}] must be object`. -/
  | commandsEntryMustBeObject (idx : Nat) : Err
  /-- The message `commands[{idx}].argv must be non-empty string array`. -/
  | commandsArgvInvalid (idx : Nat) : Err
  /-- The message `commands[{idx}].exit_code must be integer`. -/
  | commandsExitCodeNotInt (idx : Nat) : Err
  /-- The message `commands[{idx}].duration_ms must be integer`. -/
  | commandsDurationNotInt (idx : Nat) : Err
  /-- The message `commands must be non-empty array`. -/
  | commandsMustBeNonEmpty : Err
  /-- The message `log entry must be object`. -/
  | logEntryMustBeObject : Err
  /-- The message `log kind invalid: {kind}`. -/
  | logKindInvalid (kind : Option JVal) : Err
  /-- The message `{label} entry missing path`. -/
  | fileEntryMissingPath (label : String) : Err
  /-- The message `{label} file missing: {path}` (resolved path). -/
  | fileMissing (label path : String) : Err
  /-- The message `{label} bytes missing for {path_value}`. -/
  | fileBytesMissing (label pathValue : String) : Err
  /-- The message `{label} bytes mismatch for {path_value}: expected {e}, got {a}`. -/
  | fileBytesMismatch (label pathValue : String) (expected : Int) (actual : Nat) : Err
  /-- The message `{label} sha256 invalid for {path_value}`. -/
  | fileShaInvalid (label pathValue : String) : Err
  /-- The message `{label} sha256 mismatch for {path_value}: expected {e}, got {a}`. -/
  | fileShaMismatch (label pathValue expected actual : String) : Err
  /-- The message `jsonl parse error in {path_value} line {idx}`. -/
  | jsonlParse (pathValue : String) (line : Nat) : Err
  /-- The message `jsonl run_id mismatch in {path_value} line {idx}`. -/
  | jsonlRunIdMismatch (pathValue : String) (line : Nat) : Err
  /-- The message `logs must be array`. -/
  | logsMustBeArray : Err
  /-- The message `artifact kind invalid: {kind}`. -/
  | artifactKindInvalid (kind : Option JVal) : Err
  /-- The message `artifact {entry.get('path')} missing redaction_profile`. -/
  | artifactMissingProfile (path : Option JVal) : Err
  /-- The message `artifacts must be array`. -/
  | artifactsMustBeArray : Err
  /-- The message `os must be object` (capabilities validator). -/
  | osMustBeObject : Err
  /-- The message `os.family must be string`. -/
  | osFamilyMustBeString : Err
  /-- The message `tools must be object`. -/
  | toolsMustBeObject : Err
  /-- The message `user must be object`. -/
  | userMustBeObject : Err
  /-- The message `user.uid must be integer`. -/
  | userUidMustBeInt : Err
  /-- The message `user.username must be string`. -/
  | userUsernameMustBeString : Err
  /-- The message `user.home must be string`. -/
  | userHomeMustBeString : Err
  /-- The message `paths must be object`. -/
  | pathsMustBeObject : Err
  /-- The message `paths.config_dir must be string`. -/
  | pathsConfigDirMustBeString : Err
  /-- The message `paths.data_dir must be string`. -/
  | pathsDataDirMustBeString : Err
  /-- The message `discovered_at must be RFC3339 timestamp`. -/
  | discoveredAtNotRfc3339 : Err
  /-- The message `discovered_at must be string`. -/
  | discoveredAtMustBeString : Err

/-! ## Shared helpers of the validator scripts -/

/-- Numeric value of two ASCII digits. -/
def twoDigitVal (a b : Char) : Nat := (a.toNat - 48) * 10 + (b.toNat - 48)

/-- Trailing fraction and offset of an ISO time: optional `.` with at
least one digit, then optionally `+HH:MM` or `-HH:MM`. -/
def isoTailOk (l : List Char) : Bool :=
  let l1 := match l with
    | '.' :: d :: rest =>
        if d.isDigit then some (rest.dropWhile Char.isDigit) else none
    | other => some other
  match l1 with
  | none => false
  | some [] => true
  | some (sgn :: h1 :: h2 :: ':' :: m1 :: m2 :: []) =>
      (sgn = '+' || sgn = '-') && h1.isDigit && h2.isDigit &&
        m1.isDigit && m2.isDigit &&
        twoDigitVal h1 h2 < 24 && twoDigitVal m1 m2 < 60
  | some _ => false

/-- The `HH:MM:SS[.ffffff][+HH:MM]` part of an ISO datetime. -/
def isoTimeOk (l : List Char) : Bool :=
  match l with
  | h1 :: h2 :: ':' :: m1 :: m2 :: ':' :: s1 :: s2 :: rest =>
      h1.isDigit && h2.isDigit && m1.isDigit && m2.isDigit &&
        s1.isDigit && s2.isDigit &&
        twoDigitVal h1 h2 < 24 && twoDigitVal m1 m2 < 60 &&
        twoDigitVal s1 s2 < 60 && isoTailOk rest
  | _ => false

/-- Modelled simplification of `datetime.fromisoformat`: accepts
`YYYY-MM-DD`, optionally followed by `T` or a space and a full
`HH:MM:SS` time with optional fraction and offset.  The stdlib parser
accepts a few more shapes (and checks days per month); no claim depends
on this predicate's exact extension. -/
def isoDatetimeOk (l : List Char) : Bool :=
  match l with
  | y1 :: y2 :: y3 :: y4 :: '-' :: m1 :: m2 :: '-' :: d1 :: d2 :: rest =>
      y1.isDigit && y2.isDigit && y3.isDigit && y4.isDigit &&
        m1.isDigit && m2.isDigit && d1.isDigit && d2.isDigit &&
        1 ≤ twoDigitVal m1 m2 && twoDigitVal m1 m2 ≤ 12 &&
        1 ≤ twoDigitVal d1 d2 && twoDigitVal d1 d2 ≤ 31 &&
        (match rest with
         | [] => true
         | sep :: rest2 => (sep = 'T' || sep = ' ') && isoTimeOk rest2)
  | _ => false

/-- Model of `parse_rfc3339(value)` shared by the validators: a trailing
`Z` is replaced by `+00:00`, then `datetime.fromisoformat` must accept
the string. -/
def parse_rfc3339 (value : String) : Bool :=
  let d := value.data
  if d.getLast? = some 'Z' then isoDatetimeOk (d.dropLast ++ "+00:00".data)
  else isoDatetimeOk d

example : parse_rfc3339 "2024-01-01T00:00:00Z" = true := by decide
example : parse_rfc3339 "not a date" = false := by decide

/-- Split a character list on a separator character (each occurrence of
the separator ends a segment; `n` separators yield `n + 1` segments). -/
def splitOnChar (c : Char) : List Char → List (List Char)
  | [] => [[]]
  | x :: rest =>
      if x = c then [] :: splitOnChar c rest
      else
        match splitOnChar c rest with
        | [] => [[x]]
        | seg :: segs => (x :: seg) :: segs

/-- Nonempty all-digit segment (one `\d+` group). -/
def allDigits (l : List Char) : Bool := !l.isEmpty && l.all Char.isDigit

/-- Numeric value of a digit string. -/
def digitsToNat (l : List Char) : Nat :=
  l.foldl (fun acc c => acc * 10 + (c.toNat - 48)) 0

/-- Model of `VERSION_RE.match(version)` for `^(\d+)\.(\d+)\.(\d+)$`,
returning the three captured numbers. -/
def versionMatch (s : String) : Option (Nat × Nat × Nat) :=
  match splitOnChar '.' s.data with
  | [a, b, c] =>
      if allDigits a && allDigits b && allDigits c then
        some (digitsToNat a, digitsToNat b, digitsToNat c)
      else none
  | _ => none

example : versionMatch "1.0.0" = some (1, 0, 0) := by decide
example : versionMatch "1.0" = none := by decide
example : versionMatch "1.0.x" = none := by decide

/-- Model of `validate_version(version, errors)`, shared text in all
three validators; the supported major version is 1. -/
def validate_version (version : String) : List Err :=
  match versionMatch version with
  | none => [.versionNotSemver version]
  | some (major, _, _) =>
      if major ≠ 1 then [.versionUnsupportedMajor version] else []

/-- Model of `SHA256_RE.match(s)` for `^[a-f0-9]{64}$`. -/
def sha256Re (s : String) : Bool :=
  s.length == 64 &&
    s.data.all (fun c => c.isDigit || (97 ≤ c.toNat && c.toNat ≤ 102))

/-! ## JSON parsing (`json.loads` / `json.load`)

A recursive-descent parser over character lists, driven by a fuel
argument (one unit per recursion step; the callers pass the input
length plus one, which always suffices).  Restrictions against the
stdlib parser, none of which any manifest under test exercises: numbers
are integers only (floats fail to parse), `NaN`/`Infinity` are
rejected, and a `\uXXXX` escape denoting a surrogate is replaced by the
null character. -/

/-- JSON whitespace skip (space, tab, newline, carriage return). -/
def skipWs : List Char → List Char
  | c :: rest =>
      if c = ' ' || c = '\t' || c = '\n' || c = '\r' then skipWs rest
      else c :: rest
  | [] => []

/-- Hex digit value for `\uXXXX` escapes. -/
def hexVal (c : Char) : Option Nat :=
  if c.isDigit then some (c.toNat - 48)
  else if 97 ≤ c.toNat && c.toNat ≤ 102 then some (c.toNat - 87)
  else if 65 ≤ c.toNat && c.toNat ≤ 70 then some (c.toNat - 55)
  else none

/-- Parse a JSON string body after the opening quote, returning the
content and the remainder after the closing quote. -/
def parseStringBody : List Char → Option (List Char × List Char)
  | [] => none
  | '"' :: rest => some ([], rest)
  | '\\' :: e :: rest =>
      if e = '"' then (parseStringBody rest).map (fun p => ('"' :: p.1, p.2))
      else if e = '\\' then (parseStringBody rest).map (fun p => ('\\' :: p.1, p.2))
      else if e = '/' then (parseStringBody rest).map (fun p => ('/' :: p.1, p.2))
      else if e = 'b' then
        (parseStringBody rest).map (fun p => (Char.ofNat 8 :: p.1, p.2))
      else if e = 'f' then
        (parseStringBody rest).map (fun p => (Char.ofNat 12 :: p.1, p.2))
      else if e = 'n' then (parseStringBody rest).map (fun p => ('\n' :: p.1, p.2))
      else if e = 'r' then (parseStringBody rest).map (fun p => ('\r' :: p.1, p.2))
      else if e = 't' then (parseStringBody rest).map (fun p => ('\t' :: p.1, p.2))
      else if e = 'u' then
        match rest with
        | h1 :: h2 :: h3 :: h4 :: rest2 =>
            match hexVal h1, hexVal h2, hexVal h3, hexVal h4 with
            | some a, some b, some c, some d =>
                (parseStringBody rest2).map
                  (fun p => (Char.ofNat (((a * 16 + b) * 16 + c) * 16 + d) :: p.1, p.2))
            | _, _, _, _ => none
        | _ => none
      else none
  | c :: rest =>
      if c.toNat < 32 then none
      else (parseStringBody rest).map (fun p => (c :: p.1, p.2))

/-- Leading digit span. -/
def spanDigits : List Char → List Char × List Char
  | [] => ([], [])
  | c :: rest =>
      if c.isDigit then
        let p := spanDigits rest
        (c :: p.1, p.2)
      else ([], c :: rest)

/-- Parse a JSON integer (`-?(0|[1-9][0-9]*)`). -/
def parseIntTok (l : List Char) : Option (Int × List Char) :=
  let core : List Char → Option (Nat × List Char) := fun l2 =>
    match spanDigits l2 with
    | ([], _) => none
    | (d :: ds, rest) =>
        if d = '0' && !ds.isEmpty then none
        else some (digitsToNat (d :: ds), rest)
  match l with
  | '-' :: rest => (core rest).map (fun p => (-(p.1 : Int), p.2))
  | _ => (core l).map (fun p => ((p.1 : Int), p.2))

mutual

/-- Parse one JSON value. -/
def parseVal : Nat → List Char → Option (JVal × List Char)
  | 0, _ => none
  | fuel + 1, l =>
      match skipWs l with
      | '"' :: rest =>
          (parseStringBody rest).map (fun p => (JVal.str (String.mk p.1), p.2))
      | 't' :: 'r' :: 'u' :: 'e' :: rest => some (.bool true, rest)
      | 'f' :: 'a' :: 'l' :: 's' :: 'e' :: rest => some (.bool false, rest)
      | 'n' :: 'u' :: 'l' :: 'l' :: rest => some (.null, rest)
      | '[' :: rest =>
          (match skipWs rest with
           | ']' :: rest2 => some (.arr [], rest2)
           | l2 => (parseElems fuel l2).map (fun p => (JVal.arr p.1, p.2)))
      | '\x7b' :: rest =>
          (match skipWs rest with
           | '\x7d' :: rest2 => some (.obj [], rest2)
           | l2 =>
              (parseMembers fuel l2).map
                (fun p => (JVal.obj
                  (p.1.foldl (fun acc kv => dictInsert acc kv.1 kv.2) []), p.2)))
      | l2 => (parseIntTok l2).map (fun p => (JVal.int p.1, p.2))

/-- Parse comma-separated array elements and the closing bracket. -/
def parseElems : Nat → List Char → Option (List JVal × List Char)
  | 0, _ => none
  | fuel + 1, l =>
      (parseVal fuel l).bind fun (v, rest) =>
        match skipWs rest with
        | ',' :: rest2 => (parseElems fuel rest2).map (fun p => (v :: p.1, p.2))
        | ']' :: rest2 => some ([v], rest2)
        | _ => none

/-- Parse comma-separated object members and the closing brace,
returning the raw pairs in textual order (the caller folds them through
`dictInsert`, giving the last-wins duplicate handling of `json.loads`). -/
def parseMembers : Nat → List Char → Option (JObj × List Char)
  | 0, _ => none
  | fuel + 1, l =>
      match skipWs l with
      | '"' :: rest =>
          (parseStringBody rest).bind fun (kcs, rest2) =>
            match skipWs rest2 with
            | ':' :: rest3 =>
                (parseVal fuel rest3).bind fun (v, rest4) =>
                  match skipWs rest4 with
                  | ',' :: rest5 =>
                      (parseMembers fuel rest5).map
                        (fun p => ((String.mk kcs, v) :: p.1, p.2))
                  | '\x7d' :: rest5 => some ([(String.mk kcs, v)], rest5)
                  | _ => none
            | _ => none
      | _ => none

end

/-- Model of `json.loads(s)` (and of the parsing stage of `json.load`):
`some` on valid JSON, `none` on a `json.JSONDecodeError`. -/
def json_loads (s : String) : Option JVal :=
  match parseVal (s.data.length + 1) s.data with
  | some (v, rest) => if skipWs rest = [] then some v else none
  | none => none

example : json_loads " \x7b\"a\": [1, -2, null], \"b\": \"x\\n\"\x7d " =
    some (.obj [("a", .arr [.int 1, .int (-2), .null]), ("b", .str "x\n")]) := by
  decide
example : json_loads "\x7b\"run_id\":\"abc\"\x7d" =
    some (.obj [("run_id", .str "abc")]) := by decide
example : json_loads "[1,2" = none := by decide
example : json_loads "not json" = none := by decide
example : json_loads "\x7b\"a\":1,\"a\":2\x7d" = some (.obj [("a", .int 2)]) := by
  decide

/-! ## Filesystem and path model

The validators see the filesystem only through `Path.exists`,
`Path.stat().st_size`, streamed reads for hashing, and text-mode line
reads.  A filesystem is a map from resolved path strings to file text;
sizes and digests are computed from the UTF-8 bytes of that text. -/

/-- A filesystem snapshot: resolved path to file text. -/
abbrev FS := String → Option String

/-- Model of `Path(p).is_absolute()` for POSIX paths. -/
def path_is_absolute (p : String) : Bool :=
  match p.data with
  | '/' :: _ => true
  | _ => false

/-- Model of `base_dir / path` resolution (`path` when absolute). -/
def resolvePath (base p : String) : String :=
  if path_is_absolute p then p else base ++ "/" ++ p

/-- Characters removed by Python `str.strip()`. -/
def pyStripChar (c : Char) : Bool :=
  c = ' ' || c = '\t' || c = '\n' || c = '\r' || c.toNat = 11 || c.toNat = 12

/-- Model of `line.strip()`. -/
def pyStrip (s : String) : String :=
  String.mk (((s.data.dropWhile pyStripChar).reverse.dropWhile pyStripChar).reverse)

/-- Text-mode line iteration of a file (each `\n` ends a line; a final
segment without a newline is a line; the terminators themselves are
later removed by `strip`). -/
def pyLines (s : String) : List String :=
  let parts := splitOnChar '\n' s.data
  let parts2 := if parts.getLast? = some [] then parts.dropLast else parts
  parts2.map String.mk

example : pyLines "a\nb\n" = ["a", "b"] := by decide
example : pyLines "a\nb" = ["a", "b"] := by decide
example : pyLines "" = [] := by decide
example : pyLines "\n\n" = ["", ""] := by decide

/-- Python set membership `v in REDACTION_PROFILES` for an arbitrary
value (only the four profile strings are members). -/
def profileMem (v : Option JVal) : Bool :=
  match v with
  | some (.str s) =>
      s = "minimal" || s = "safe" || s = "forensic" || s = "custom"
  | _ => false

/-- Model of `validate_schema_with_jsonschema`: the optional
`jsonschema` module is unavailable in the modelled environment, so the
function returns without appending errors (the `except Exception:
return` branch).  The schema resource is therefore not consulted. -/
def validate_schema_with_jsonschema (_manifest : JObj) : List Err := []

/-- Model of the parsing stage of `load_json(path)` (shared by the three
validators): `json.load` of the file text; a decode failure raises
`SystemExit(f"invalid JSON in {path}: ...")`, a missing file raises
`SystemExit(f"manifest not found: {path}")` before parsing. -/
def load_json (text : String) : Except String JVal :=
  match json_loads text with
  | some v => .ok v
  | none => .error "invalid JSON"

/-! ## `validate_fixture_manifest.py` -/

namespace FixtureV

/-- Model of `check_redaction(value, label, errors)`. -/
def check_redaction (value label : String) : List Err :=
  (if homeSearch value then [.unredactedHome label] else []) ++
  (if uuidSearch value then [.unredactedUuid label] else []) ++
  (if hexSearch value then [.unredactedHex label] else [])

/-- Per-item loop of `validate_source` over `source.command` /
`source.paths` with enumerated labels. -/
def sourceListErrors (key : String) : Nat → List JVal → List Err
  | _, [] => []
  | idx, item :: rest =>
      (match item with
       | .str s =>
           check_redaction s ("source." ++ key ++ "[" ++ toString idx ++ "]")
       | _ => [.sourceItemMustBeString key idx]) ++
      sourceListErrors key (idx + 1) rest

/-- The `command` / `paths` handling of `validate_source`: absent (or
JSON `null`, which `source.get(key)` also returns as `None`) is skipped,
a non-list is one error, a list is scanned item by item. -/
def sourceKeyPart (source : JObj) (key : String) : List Err :=
  match jget source key with
  | none => []
  | some .null => []
  | some (.arr items) => sourceListErrors key 0 items
  | some _ => [.sourceListMustBeList key]

/-- Model of `validate_source(source, errors)`: `origin` must be a
non-empty string (it is type-checked only, not scanned), each string
entry of `command` and `paths` is scanned for redaction violations, and
`notes`, when present and not `None`, must be a string. -/
def validate_source (source : JObj) : List Err :=
  (match jget source "origin" with
   | some (.str o) => if o = "" then [.sourceOriginMustBeString] else []
   | _ => [.sourceOriginMustBeString]) ++
  sourceKeyPart source "command" ++
  sourceKeyPart source "paths" ++
  (match jget source "notes" with
   | none => []
   | some .null => []
   | some (.str _) => []
   | some _ => [.sourceNotesMustBeString])

/-- Model of `validate_tool_versions(tool_versions, errors)`.  JSON
object keys are always strings, so the `isinstance(key, str)` half of
the key check can only fail on emptiness; an empty key `continue`s past
the value check. -/
def toolVersionErrors : List (String × JVal) → List Err
  | [] => []
  | (k, v) :: rest =>
      (if k = "" then [.toolVersionsKeysMustBeStrings]
       else
         match v with
         | .str s => if s = "" then [.toolVersionValueMustBeString k] else []
         | _ => [.toolVersionValueMustBeString k]) ++
      toolVersionErrors rest

/-- Model of `validate_artifact_entry(entry, base_dir, errors)`: path
presence, existence, then the independent bytes and sha256 comparisons,
then the `redaction_profile` membership check. -/
def validate_artifact_entry (fs : FS) (entry : JObj) (base_dir : String) :
    List Err :=
  match jget entry "path" with
  | some (.str p) =>
      if p = "" then [.artifactMissingPath]
      else
        match fs (resolvePath base_dir p) with
        | none => [.artifactFileMissing (resolvePath base_dir p)]
        | some content =>
            (match jget entry "bytes" with
             | some (.int n) =>
                 if n ≠ ((utf8Encode content).length : Int) then
                   [.artifactBytesMismatch p n (utf8Encode content).length]
                 else []
             | _ => [.artifactBytesMissing p]) ++
            (match jget entry "sha256" with
             | some (.str h) =>
                 if !sha256Re h then [.artifactShaInvalid p]
                 else if h ≠ sha256_bytes (utf8Encode content) then
                   [.artifactShaMismatch p h (sha256_bytes (utf8Encode content))]
                 else []
             | _ => [.artifactShaInvalid p]) ++
            (if profileMem (jget entry "redaction_profile") then []
             else [.artifactProfileInvalid p])
  | _ => [.artifactMissingPath]

/-- The required top-level fields of a fixture manifest, in source order. -/
def requiredFields : List String :=
  ["schema_version", "fixture_id", "domain", "capture_time", "source",
   "tool_versions", "redaction_profile", "artifacts", "manifest_sha256"]

/-- One `missing required field` error per absent key. -/
def missingPart (m : JObj) : List Err :=
  (requiredFields.filter (fun f => (jget m f).isNone)).map Err.missingField

/-- The `schema_version` type and semver check. -/
def versionPart (m : JObj) : List Err :=
  match jget m "schema_version" with
  | some (.str v) => validate_version v
  | _ => [.schemaVersionMustBeString]

/-- The `fixture_id` type check. -/
def idPart (m : JObj) : List Err :=
  match jget m "fixture_id" with
  | some (.str _) => []
  | _ => [.fixtureIdMustBeString]

/-- The `domain` type check. -/
def domainPart (m : JObj) : List Err :=
  match jget m "domain" with
  | some (.str _) => []
  | _ => [.domainMustBeString]

/-- The `capture_time` type and RFC3339 check. -/
def timePart (m : JObj) : List Err :=
  match jget m "capture_time" with
  | some (.str t) => if parse_rfc3339 t then [] else [.captureTimeNotRfc3339]
  | _ => [.captureTimeMustBeString]

/-- The `source` object check. -/
def sourcePart (m : JObj) : List Err :=
  match jget m "source" with
  | some (.obj s) => validate_source s
  | _ => [.sourceMustBeObject]

/-- The `tool_versions` object check. -/
def toolsPart (m : JObj) : List Err :=
  match jget m "tool_versions" with
  | some (.obj tv) => toolVersionErrors tv
  | _ => [.toolVersionsMustBeObject]

/-- The top-level `redaction_profile` membership check. -/
def profilePart (m : JObj) : List Err :=
  if profileMem (jget m "redaction_profile") then []
  else [.redactionProfileInvalid]

/-- The `artifacts` loop: a non-list or empty list is one error,
otherwise each entry is checked (non-dict entries produce one error). -/
def artifactsPart (fs : FS) (base_dir : String) (m : JObj) : List Err :=
  match jget m "artifacts" with
  | some (.arr entries) =>
      if entries.isEmpty then [.artifactsMustBeNonEmptyList]
      else
        entries.flatMap (fun e =>
          match e with
          | .obj eo => validate_artifact_entry fs eo base_dir
          | _ => [.artifactEntryMustBeObject])
  | _ => [.artifactsMustBeNonEmptyList]

/-- The self-hash check: the comparison runs only when the stored value
is a well-formed sha256 hex string; otherwise that single defect is
reported. -/
def shaPart (m : JObj) : List Err :=
  match jget m "manifest_sha256" with
  | some (.str h) =>
      if sha256Re h then
        if h ≠ sha256_bytes (canonical_manifest_bytes m) then
          [.fixtureShaMismatch]
        else []
      else [.fixtureShaMustBeHex]
  | _ => [.fixtureShaMustBeHex]

/-- Model of `validate_manifest(manifest, manifest_path, schema_path)`.
`base_dir` stands for `manifest_path.parent`; the schema resource is
unused because the optional `jsonschema` capability is modelled as
absent. -/
def validate_manifest (fs : FS) (m : JObj) (base_dir : String) : List Err :=
  validate_schema_with_jsonschema m ++
  missingPart m ++
  versionPart m ++
  idPart m ++
  domainPart m ++
  timePart m ++
  sourcePart m ++
  toolsPart m ++
  profilePart m ++
  artifactsPart fs base_dir m ++
  shaPart m

end FixtureV

/-! ## `validate_e2e_manifest.py` -/

namespace E2EV

/-- Membership in `LOG_KINDS`. -/
def logKindOk (v : Option JVal) : Bool :=
  match v with
  | some (.str s) =>
      s = "jsonl" || s = "text" || s = "tap" || s = "stdout" || s = "stderr"
  | _ => false

/-- Membership in `ARTIFACT_KINDS`. -/
def artifactKindOk (v : Option JVal) : Bool :=
  match v with
  | some (.str s) =>
      s = "snapshot" || s = "plan" || s = "telemetry" || s = "bundle" ||
      s = "report" || s = "daemon" || s = "install" || s = "tui" ||
      s = "manifest" || s = "other"
  | _ => false

/-- Membership in `REDACTION_REQUIRED_KINDS`. -/
def redactionRequired (v : Option JVal) : Bool :=
  match v with
  | some (.str s) =>
      s = "snapshot" || s = "plan" || s = "telemetry" || s = "bundle" ||
      s = "report"
  | _ => false

/-- Model of `validate_file_entry(entry, base_dir, label, errors)`:
path presence, existence, then the independent bytes and sha256
comparisons. -/
def validate_file_entry (fs : FS) (entry : JObj) (base_dir label : String) :
    List Err :=
  match jget entry "path" with
  | some (.str p) =>
      if p = "" then [.fileEntryMissingPath label]
      else
        match fs (resolvePath base_dir p) with
        | none => [.fileMissing label (resolvePath base_dir p)]
        | some content =>
            (match jget entry "bytes" with
             | some (.int n) =>
                 if n ≠ ((utf8Encode content).length : Int) then
                   [.fileBytesMismatch label p n (utf8Encode content).length]
                 else []
             | _ => [.fileBytesMissing label p]) ++
            (match jget entry "sha256" with
             | some (.str h) =>
                 if !sha256Re h then [.fileShaInvalid label p]
                 else if h ≠ sha256_bytes (utf8Encode content) then
                   [.fileShaMismatch label p h (sha256_bytes (utf8Encode content))]
                 else []
             | _ => [.fileShaInvalid label p])
  | _ => [.fileEntryMissingPath label]

/-- Per-line loop of `validate_jsonl_run_id` (lines numbered from 1;
blank lines skipped; a parse failure is reported per line; a parsed
payload whose `run_id` differs from the manifest's is reported per
line).  A payload that is not an object is modelled as having no
`run_id` (the script itself would raise `AttributeError` there; no
manifest under test contains such a line). -/
def jsonlLineErrors (pathValue run_id : String) : Nat → List String → List Err
  | _, [] => []
  | idx, line :: rest =>
      (if pyStrip line = "" then []
       else
         match json_loads (pyStrip line) with
         | none => [.jsonlParse pathValue idx]
         | some payload =>
             if (match payload with
                 | .obj po => jget po "run_id"
                 | _ => none) = some (.str run_id) then []
             else [.jsonlRunIdMismatch pathValue idx]) ++
      jsonlLineErrors pathValue run_id (idx + 1) rest

/-- Model of `validate_jsonl_run_id(entry, base_dir, run_id, errors)`:
silently returns when the path is absent/empty or the file missing. -/
def validate_jsonl_run_id (fs : FS) (entry : JObj) (base_dir run_id : String) :
    List Err :=
  match jget entry "path" with
  | some (.str p) =>
      if p = "" then []
      else
        match fs (resolvePath base_dir p) with
        | none => []
        | some content => jsonlLineErrors p run_id 1 (pyLines content)
  | _ => []

/-- The required top-level fields of an e2e manifest, in source order. -/
def requiredFields : List String :=
  ["schema_version", "run_id", "suite", "test_id", "timestamp", "env",
   "commands", "logs", "artifacts", "metrics", "manifest_sha256"]

/-- One `missing required field` error per absent key. -/
def missingPart (m : JObj) : List Err :=
  (requiredFields.filter (fun f => (jget m f).isNone)).map Err.missingField

/-- The `schema_version` type and semver check. -/
def versionPart (m : JObj) : List Err :=
  match jget m "schema_version" with
  | some (.str v) => validate_version v
  | _ => [.schemaVersionMustBeString]

/-- The `run_id` / `suite` / `test_id` type checks. -/
def idsPart (m : JObj) : List Err :=
  (match jget m "run_id" with
   | some (.str _) => []
   | _ => [.runIdMustBeString]) ++
  (match jget m "suite" with
   | some (.str _) => []
   | _ => [.suiteMustBeString]) ++
  (match jget m "test_id" with
   | some (.str _) => []
   | _ => [.testIdMustBeString])

/-- The `timestamp` type and RFC3339 check. -/
def timePart (m : JObj) : List Err :=
  match jget m "timestamp" with
  | some (.str t) => if parse_rfc3339 t then [] else [.timestampNotRfc3339]
  | _ => [.timestampMustBeString]

/-- The `env` object check with its four string fields. -/
def envPart (m : JObj) : List Err :=
  match jget m "env" with
  | some (.obj e) =>
      (["os", "arch", "kernel", "ci_provider"].filter (fun f =>
        match jget e f with
        | some (.str _) => false
        | _ => true)).map Err.envFieldMustBeString
  | _ => [.envMustBeObject]

/-- The self-hash check of the e2e validator: when the stored value is a
string, a malformed value is reported AND the recomputed hash is still
compared (both errors can appear); a non-string value is one error and
no comparison. -/
def shaPart (m : JObj) : List Err :=
  match jget m "manifest_sha256" with
  | some (.str h) =>
      (if !sha256Re h then [.e2eShaNotHex] else []) ++
      (if h ≠ sha256_bytes (canonical_manifest_bytes m) then
        [.e2eShaMismatch h (sha256_bytes (canonical_manifest_bytes m))]
       else [])
  | _ => [.e2eShaMustBeString]

/-- The manifest's `run_id` as used for the JSONL check: the field when
it is a string, otherwise the empty string. -/
def runIdStr (m : JObj) : String :=
  match jget m "run_id" with
  | some (.str s) => s
  | _ => ""

/-- Per-entry loop of the `commands` check. -/
def commandEntryErrors : Nat → List JVal → List Err
  | _, [] => []
  | idx, e :: rest =>
      (match e with
       | .obj eo =>
           (match jget eo "argv" with
            | some (.arr av) =>
                if !av.isEmpty &&
                    av.all (fun v => match v with | .str _ => true | _ => false)
                then []
                else [.commandsArgvInvalid idx]
            | _ => [.commandsArgvInvalid idx]) ++
           (match jget eo "exit_code" with
            | some (.int _) => []
            | _ => [.commandsExitCodeNotInt idx]) ++
           (match jget eo "duration_ms" with
            | some (.int _) => []
            | _ => [.commandsDurationNotInt idx])
       | _ => [.commandsEntryMustBeObject idx]) ++
      commandEntryErrors (idx + 1) rest

/-- The `commands` check: non-list or empty is one error. -/
def commandsPart (m : JObj) : List Err :=
  match jget m "commands" with
  | some (.arr cs) =>
      if cs.isEmpty then [.commandsMustBeNonEmpty]
      else commandEntryErrors 0 cs
  | _ => [.commandsMustBeNonEmpty]

/-- One log entry: kind membership, file checks, and — only when the
kind is `jsonl` and the manifest `run_id` is a non-empty string — the
JSONL run_id consistency check. -/
def logEntryErrors (fs : FS) (base_dir run_id : String) (e : JVal) : List Err :=
  match e with
  | .obj eo =>
      (if logKindOk (jget eo "kind") then []
       else [.logKindInvalid (jget eo "kind")]) ++
      validate_file_entry fs eo base_dir "log" ++
      (if jget eo "kind" = some (.str "jsonl") ∧ run_id ≠ "" then
        validate_jsonl_run_id fs eo base_dir run_id
       else [])
  | _ => [.logEntryMustBeObject]

/-- The `logs` check: must be a list (possibly empty). -/
def logsPart (fs : FS) (base_dir run_id : String) (m : JObj) : List Err :=
  match jget m "logs" with
  | some (.arr ls) => ls.flatMap (logEntryErrors fs base_dir run_id)
  | _ => [.logsMustBeArray]

/-- One artifact entry: kind membership, file checks, and the
cross-field rule that redaction-required kinds carry a truthy
`redaction_profile`. -/
def artifactEntryErrors (fs : FS) (base_dir : String) (e : JVal) : List Err :=
  match e with
  | .obj eo =>
      (if artifactKindOk (jget eo "kind") then []
       else [.artifactKindInvalid (jget eo "kind")]) ++
      validate_file_entry fs eo base_dir "artifact" ++
      (if redactionRequired (jget eo "kind") ∧
          ¬(match jget eo "redaction_profile" with
            | some v => jtruthy v
            | none => false) = true then
        [.artifactMissingProfile (jget eo "path")]
       else [])
  | _ => [.artifactEntryMustBeObject]

/-- The `artifacts` check: must be a list (possibly empty). -/
def artifactsPart (fs : FS) (base_dir : String) (m : JObj) : List Err :=
  match jget m "artifacts" with
  | some (.arr as) => as.flatMap (artifactEntryErrors fs base_dir)
  | _ => [.artifactsMustBeArray]

/-- Model of `validate_manifest(manifest, manifest_path, schema_path)`
of the e2e validator.  `base_dir` stands for `manifest_path.parent`. -/
def validate_manifest (fs : FS) (m : JObj) (base_dir : String) : List Err :=
  validate_schema_with_jsonschema m ++
  missingPart m ++
  versionPart m ++
  idsPart m ++
  timePart m ++
  envPart m ++
  shaPart m ++
  commandsPart m ++
  logsPart fs base_dir (runIdStr m) m ++
  artifactsPart fs base_dir m

end E2EV

/-! ## `validate_capabilities_manifest.py` -/

namespace CapsV

/-- The required top-level fields of a capabilities manifest. -/
def requiredFields : List String :=
  ["schema_version", "os", "tools", "user", "paths", "discovered_at"]

/-- Model of `validate_manifest(manifest, schema_path)` of the
capabilities validator. -/
def validate_manifest (m : JObj) : List Err :=
  validate_schema_with_jsonschema m ++
  (requiredFields.filter (fun f => (jget m f).isNone)).map Err.missingField ++
  (match jget m "schema_version" with
   | some (.str v) => validate_version v
   | _ => [.schemaVersionMustBeString]) ++
  (match jget m "os" with
   | some (.obj o) =>
       (match jget o "family" with
        | some (.str _) => []
        | _ => [.osFamilyMustBeString])
   | _ => [.osMustBeObject]) ++
  (match jget m "tools" with
   | some (.obj _) => []
   | _ => [.toolsMustBeObject]) ++
  (match jget m "user" with
   | some (.obj u) =>
       (match jget u "uid" with
        | some (.int _) => []
        | _ => [.userUidMustBeInt]) ++
       (match jget u "username" with
        | some (.str _) => []
        | _ => [.userUsernameMustBeString]) ++
       (match jget u "home" with
        | some (.str _) => []
        | _ => [.userHomeMustBeString])
   | _ => [.userMustBeObject]) ++
  (match jget m "paths" with
   | some (.obj p) =>
       (match jget p "config_dir" with
        | some (.str _) => []
        | _ => [.pathsConfigDirMustBeString]) ++
       (match jget p "data_dir" with
        | some (.str _) => []
        | _ => [.pathsDataDirMustBeString])
   | _ => [.pathsMustBeObject]) ++
  (match jget m "discovered_at" with
   | some (.str t) =>
       if parse_rfc3339 t then [] else [.discoveredAtNotRfc3339]
   | _ => [.discoveredAtMustBeString])

end CapsV

/-! ## `fixture_capture.py`: building a manifest -/

namespace Capture

/-- The `SCHEMA_VERSION` constant. -/
def SCHEMA_VERSION : String := "1.0.0"

/-- The `source` block assembled by `build_manifest`: `origin` first,
then `command` and `paths` only when truthy, with the redaction
substitutions applied. -/
def build_source (origin : String) (command source_paths : Option (List String)) :
    JObj :=
  [("origin", JVal.str origin)] ++
  (match command with
   | some c =>
       if !c.isEmpty then
         [("command", JVal.arr ((redact_values c).map JVal.str))]
       else []
   | none => []) ++
  (match source_paths with
   | some ps =>
       if !ps.isEmpty then
         [("paths", JVal.arr ((redact_values ps).map JVal.str))]
       else []
   | none => [])

/-- The manifest assembled by `build_manifest` before `manifest_sha256`
is added, in source insertion order (`description` only when truthy). -/
def build_core (fixture_id domain : String) (description : Option String)
    (capture_time origin : String)
    (command source_paths : Option (List String))
    (tool_versions : List (String × String))
    (redaction_profile : String) (artifacts : List JVal) : JObj :=
  [("schema_version", JVal.str SCHEMA_VERSION),
   ("fixture_id", JVal.str fixture_id),
   ("domain", JVal.str domain),
   ("capture_time", JVal.str capture_time),
   ("source", JVal.obj (build_source origin command source_paths)),
   ("tool_versions", JVal.obj (tool_versions.map (fun kv => (kv.1, JVal.str kv.2)))),
   ("redaction_profile", JVal.str redaction_profile),
   ("artifacts", JVal.arr artifacts)] ++
  (match description with
   | some d => if d ≠ "" then [("description", JVal.str d)] else []
   | none => [])

/-- Model of `build_manifest(...)`: the core document is assembled, then
`manifest_sha256` is set to the SHA-256 hex digest of the canonical
bytes of the document before that key is added. -/
def build_manifest (fixture_id domain : String) (description : Option String)
    (capture_time origin : String)
    (command source_paths : Option (List String))
    (tool_versions : List (String × String))
    (redaction_profile : String) (artifacts : List JVal) : JObj :=
  let core := build_core fixture_id domain description capture_time origin
    command source_paths tool_versions redaction_profile artifacts
  core ++ [("manifest_sha256", JVal.str (sha256_bytes (canonical_manifest_bytes core)))]

end Capture

/-! ## Dynamic typing at the validator entry points

`load_json` is annotated to return a dict but `json.load` returns
whatever the document's top-level value is.  Each `validate_manifest`
starts with the membership loop `field not in manifest` — which works
for lists and strings but raises `TypeError` for `None`, booleans and
numbers — and then calls `manifest.get(...)`, which raises
`AttributeError` for every non-dict value. -/

/-- An uncaught Python exception at the validator entry point. -/
inductive PyExc where
  | typeError : PyExc
  | attributeError : PyExc

/-- Outcome of the fixture validator on an arbitrary JSON document. -/
def FixtureV.validate_manifest_dyn (fs : FS) (v : JVal) (base_dir : String) :
    Except PyExc (List Err) :=
  match v with
  | .obj m => .ok (FixtureV.validate_manifest fs m base_dir)
  | .arr _ => .error .attributeError
  | .str _ => .error .attributeError
  | _ => .error .typeError

/-- Outcome of the e2e validator on an arbitrary JSON document. -/
def E2EV.validate_manifest_dyn (fs : FS) (v : JVal) (base_dir : String) :
    Except PyExc (List Err) :=
  match v with
  | .obj m => .ok (E2EV.validate_manifest fs m base_dir)
  | .arr _ => .error .attributeError
  | .str _ => .error .attributeError
  | _ => .error .typeError

/-- Outcome of the capabilities validator on an arbitrary JSON document. -/
def CapsV.validate_manifest_dyn (v : JVal) : Except PyExc (List Err) :=
  match v with
  | .obj m => .ok (CapsV.validate_manifest m)
  | .arr _ => .error .attributeError
  | .str _ => .error .attributeError
  | _ => .error .typeError

/-! ## Well-formedness of hex digests -/

theorem hexChar_isHex (n : Nat) (h : n < 16) :
    ((hexChar n).isDigit ||
      (97 ≤ (hexChar n).toNat && (hexChar n).toNat ≤ 102)) = true := by
  interval_cases n <;> decide

theorem word2hex_all (v : Nat) :
    (word2hex v).all
      (fun c => c.isDigit || (97 ≤ c.toNat && c.toNat ≤ 102)) = true := by
  have h16 : ∀ x : Nat, x % 16 < 16 := fun x => Nat.mod_lt _ (by omega)
  simp only [word2hex, List.all_cons, List.all_nil, Bool.and_true]
  repeat rw [hexChar_isHex _ (h16 _)]
  rfl

theorem length_word2hex (v : Nat) : (word2hex v).length = 8 := rfl

/-- Every value of `sha256_bytes` matches `SHA256_RE`: it is 64
lowercase hex characters. -/
theorem sha256Re_sha256_bytes (data : List Nat) :
    sha256Re (sha256_bytes data) = true := by
  unfold sha256_bytes sha256Re
  simp only [String.length, String.mk]
  rw [Bool.and_eq_true]
  constructor
  · simp [List.length_append, length_word2hex]
  · simp only [List.all_append, Bool.and_eq_true]
    refine ⟨⟨⟨⟨⟨⟨⟨?_, ?_⟩, ?_⟩, ?_⟩, ?_⟩, ?_⟩, ?_⟩, ?_⟩ <;>
      exact word2hex_all _

/-! ## Provenance of error constructors in the fixture validator -/

/-- The two self-hash error messages of the fixture validator. -/
def isFixtureShaErr : Err → Bool
  | .fixtureShaMismatch => true
  | .fixtureShaMustBeHex => true
  | _ => false

theorem mem_ite_sing {α : Type} {c : Prop} [Decidable c] {a e : α}
    (he : e ∈ (if c then [a] else [])) : e = a := by
  split at he <;> simp_all

namespace FixtureV

theorem check_redaction_shaFree {v l : String} {e : Err}
    (he : e ∈ check_redaction v l) : isFixtureShaErr e = false := by
  unfold check_redaction at he
  rcases List.mem_append.mp he with he | he
  · rcases List.mem_append.mp he with he | he <;>
      rw [mem_ite_sing he] <;> rfl
  · rw [mem_ite_sing he]; rfl

theorem sourceListErrors_shaFree {key : String} {e : Err} :
    ∀ {idx : Nat} {items : List JVal}, e ∈ sourceListErrors key idx items →
      isFixtureShaErr e = false := by
  intro idx items
  induction items generalizing idx with
  | nil => intro he; simp [sourceListErrors] at he
  | cons x rest ih =>
      intro he
      simp only [sourceListErrors] at he
      rcases List.mem_append.mp he with he | he
      · match x with
        | .str s => exact check_redaction_shaFree he
        | .null | .bool _ | .int _ | .arr _ | .obj _ =>
            simp_all [isFixtureShaErr]
      · exact ih he

theorem sourceKeyPart_shaFree {src : JObj} {key : String} {e : Err}
    (he : e ∈ sourceKeyPart src key) : isFixtureShaErr e = false := by
  unfold sourceKeyPart at he
  split at he
  · simp at he
  · simp at he
  · exact sourceListErrors_shaFree he
  · simp_all [isFixtureShaErr]

theorem validate_source_shaFree {src : JObj} {e : Err}
    (he : e ∈ validate_source src) : isFixtureShaErr e = false := by
  unfold validate_source at he
  rcases List.mem_append.mp he with he | he
  · rcases List.mem_append.mp he with he | he
    · rcases List.mem_append.mp he with he | he
      · split at he <;> first
          | (rw [mem_ite_sing he]; rfl)
          | simp_all [isFixtureShaErr]
      · exact sourceKeyPart_shaFree he
    · exact sourceKeyPart_shaFree he
  · split at he <;> simp_all [isFixtureShaErr]

theorem toolVersionErrors_shaFree {e : Err} :
    ∀ {tv : List (String × JVal)}, e ∈ toolVersionErrors tv →
      isFixtureShaErr e = false := by
  intro tv
  induction tv with
  | nil => intro he; simp [toolVersionErrors] at he
  | cons kv rest ih =>
      intro he
      obtain ⟨k, v⟩ := kv
      simp only [toolVersionErrors] at he
      rcases List.mem_append.mp he with he | he
      · split at he
        · simp_all [isFixtureShaErr]
        · split at he <;> simp_all [isFixtureShaErr]
      · exact ih he

theorem validate_artifact_entry_shaFree {fs : FS} {entry : JObj}
    {base_dir : String} {e : Err}
    (he : e ∈ validate_artifact_entry fs entry base_dir) :
    isFixtureShaErr e = false := by
  unfold validate_artifact_entry at he
  split at he
  case h_2 => simp_all [isFixtureShaErr]
  case h_1 p hp =>
    split at he
    · simp_all [isFixtureShaErr]
    · split at he
      · simp_all [isFixtureShaErr]
      · rcases List.mem_append.mp he with he | he
        · rcases List.mem_append.mp he with he | he
          · split at he
            · split at he <;> simp_all [isFixtureShaErr]
            · simp_all [isFixtureShaErr]
          · split at he
            · split at he
              · simp_all [isFixtureShaErr]
              · split at he <;> simp_all [isFixtureShaErr]
            · simp_all [isFixtureShaErr]
        · split at he <;> simp_all [isFixtureShaErr]

theorem missingPart_shaFree {m : JObj} {e : Err}
    (he : e ∈ missingPart m) : isFixtureShaErr e = false := by
  unfold missingPart at he
  obtain ⟨f, _, rfl⟩ := List.mem_map.mp he
  rfl

theorem versionPart_shaFree {m : JObj} {e : Err}
    (he : e ∈ versionPart m) : isFixtureShaErr e = false := by
  unfold versionPart at he
  split at he
  · unfold validate_version at he
    split at he
    · simp_all [isFixtureShaErr]
    · split at he <;> simp_all [isFixtureShaErr]
  · simp_all [isFixtureShaErr]

theorem idPart_shaFree {m : JObj} {e : Err}
    (he : e ∈ idPart m) : isFixtureShaErr e = false := by
  unfold idPart at he
  split at he <;> simp_all [isFixtureShaErr]

theorem domainPart_shaFree {m : JObj} {e : Err}
    (he : e ∈ domainPart m) : isFixtureShaErr e = false := by
  unfold domainPart at he
  split at he <;> simp_all [isFixtureShaErr]

theorem timePart_shaFree {m : JObj} {e : Err}
    (he : e ∈ timePart m) : isFixtureShaErr e = false := by
  unfold timePart at he
  split at he
  · split at he <;> simp_all [isFixtureShaErr]
  · simp_all [isFixtureShaErr]

theorem sourcePart_shaFree {m : JObj} {e : Err}
    (he : e ∈ sourcePart m) : isFixtureShaErr e = false := by
  unfold sourcePart at he
  split at he
  · exact validate_source_shaFree he
  · simp_all [isFixtureShaErr]

theorem toolsPart_shaFree {m : JObj} {e : Err}
    (he : e ∈ toolsPart m) : isFixtureShaErr e = false := by
  unfold toolsPart at he
  split at he
  · exact toolVersionErrors_shaFree he
  · simp_all [isFixtureShaErr]

theorem profilePart_shaFree {m : JObj} {e : Err}
    (he : e ∈ profilePart m) : isFixtureShaErr e = false := by
  unfold profilePart at he
  split at he <;> simp_all [isFixtureShaErr]

theorem artifactsPart_shaFree {fs : FS} {base_dir : String} {m : JObj} {e : Err}
    (he : e ∈ artifactsPart fs base_dir m) : isFixtureShaErr e = false := by
  unfold artifactsPart at he
  split at he
  · split at he
    · simp_all [isFixtureShaErr]
    · obtain ⟨x, _, hx⟩ := List.mem_flatMap.mp he
      match x with
      | .obj eo => exact validate_artifact_entry_shaFree hx
      | .null | .bool _ | .int _ | .str _ | .arr _ =>
          simp_all [isFixtureShaErr]
  · simp_all [isFixtureShaErr]

/-- A self-hash error in the fixture validator's output can only come
from the self-hash check. -/
theorem shaErr_mem_shaPart {fs : FS} {m : JObj} {base_dir : String} {e : Err}
    (he : e ∈ validate_manifest fs m base_dir)
    (hc : isFixtureShaErr e = true) : e ∈ shaPart m := by
  unfold validate_manifest validate_schema_with_jsonschema at he
  rcases List.mem_append.mp he with he | he
  · rcases List.mem_append.mp he with he | he
    · rcases List.mem_append.mp he with he | he
      · rcases List.mem_append.mp he with he | he
        · rcases List.mem_append.mp he with he | he
          · rcases List.mem_append.mp he with he | he
            · rcases List.mem_append.mp he with he | he
              · rcases List.mem_append.mp he with he | he
                · rcases List.mem_append.mp he with he | he
                  · rcases List.mem_append.mp he with he | he
                    · simp at he
                    · rw [missingPart_shaFree he] at hc; cases hc
                  · rw [versionPart_shaFree he] at hc; cases hc
                · rw [idPart_shaFree he] at hc; cases hc
              · rw [domainPart_shaFree he] at hc; cases hc
            · rw [timePart_shaFree he] at hc; cases hc
          · rw [sourcePart_shaFree he] at hc; cases hc
        · rw [toolsPart_shaFree he] at hc; cases hc
      · rw [profilePart_shaFree he] at hc; cases hc
    · rw [artifactsPart_shaFree he] at hc; cases hc
  · exact he

end FixtureV

/-! ## C1: canonical-hash closure -/

theorem jget_append_of_keys_ne (l1 l2 : JObj) (k : String)
    (h : ∀ p ∈ l1, p.1 ≠ k) : jget (l1 ++ l2) k = jget l2 k := by
  induction l1 with
  | nil => rfl
  | cons a rest ih =>
      obtain ⟨ka, va⟩ := a
      have hka : ka ≠ k := h (ka, va) (by simp)
      have hbe : (k == ka) = false := by
        rw [beq_eq_false_iff_ne]; exact Ne.symm hka
      simp only [jget, List.cons_append, List.lookup, hbe]
      exact ih (fun p hp => h p (by simp [hp]))

theorem popKey_append (l1 l2 : JObj) (k : String) :
    popKey (l1 ++ l2) k = popKey l1 k ++ popKey l2 k := by
  simp [popKey, List.filter_append]

theorem canonical_append_sha (core : JObj) (v : JVal) :
    canonical_manifest_bytes (core ++ [("manifest_sha256", v)]) =
      canonical_manifest_bytes core := by
  unfold canonical_manifest_bytes
  rw [popKey_append]
  simp [popKey]

theorem closure_of_core (core : JObj)
    (hk : ∀ p ∈ core, p.1 ≠ "manifest_sha256") :
    jget (core ++ [("manifest_sha256",
        JVal.str (sha256_bytes (canonical_manifest_bytes core)))])
      "manifest_sha256" =
      some (.str (sha256_bytes (canonical_manifest_bytes
        (core ++ [("manifest_sha256",
          JVal.str (sha256_bytes (canonical_manifest_bytes core)))])))) := by
  rw [canonical_append_sha]
  rw [jget_append_of_keys_ne _ _ _ hk]
  rfl

theorem build_core_keys (fid dom : String) (desc : Option String)
    (ct origin : String) (cmd sp : Option (List String))
    (tv : List (String × String)) (rp : String) (arts : List JVal) :
    ∀ p ∈ Capture.build_core fid dom desc ct origin cmd sp tv rp arts,
      p.1 ≠ "manifest_sha256" := by
  intro p hp
  unfold Capture.build_core at hp
  rcases List.mem_append.mp hp with hp | hp
  · simp at hp
    rcases hp with h | h | h | h | h | h | h | h <;> simp [h]
  · match desc with
    | none => exact absurd hp (List.not_mem_nil p)
    | some d =>
        have hp2 : p ∈ (if d ≠ "" then [("description", JVal.str d)] else []) := hp
        rw [mem_ite_sing hp2]
        simp

/-- C1: canonical-hash closure.  If the stored `manifest_sha256` equals
the SHA-256 hex digest of the canonical bytes (computed with that field
removed), the fixture validator's self-hash recomputation succeeds and
reports neither `manifest_sha256 mismatch` nor the malformed-hash
error; if the stored value is a well-formed 64-hex string that differs
from the recomputed digest, the mismatch error is reported; and every
manifest produced by the capture path's `build_manifest` satisfies the
closure premise. -/
theorem claim_C1_canonical_hash_closure :
    (∀ (fs : FS) (m : JObj) (base_dir : String),
      jget m "manifest_sha256" =
        some (.str (sha256_bytes (canonical_manifest_bytes m))) →
      Err.fixtureShaMismatch ∉ FixtureV.validate_manifest fs m base_dir ∧
      Err.fixtureShaMustBeHex ∉ FixtureV.validate_manifest fs m base_dir) ∧
    (∀ (fs : FS) (m : JObj) (base_dir : String) (h : String),
      jget m "manifest_sha256" = some (.str h) → sha256Re h = true →
      h ≠ sha256_bytes (canonical_manifest_bytes m) →
      Err.fixtureShaMismatch ∈ FixtureV.validate_manifest fs m base_dir) ∧
    (∀ (fid dom : String) (desc : Option String) (ct origin : String)
      (cmd sp : Option (List String)) (tv : List (String × String))
      (rp : String) (arts : List JVal),
      jget (Capture.build_manifest fid dom desc ct origin cmd sp tv rp arts)
          "manifest_sha256" =
        some (.str (sha256_bytes (canonical_manifest_bytes
          (Capture.build_manifest fid dom desc ct origin cmd sp tv rp arts))))) := by
  refine ⟨?_, ?_, ?_⟩
  · intro fs m base_dir hstored
    constructor <;>
      · intro hmem
        have hsha := FixtureV.shaErr_mem_shaPart hmem rfl
        unfold FixtureV.shaPart at hsha
        rw [hstored] at hsha
        simp [sha256Re_sha256_bytes] at hsha
  · intro fs m base_dir h hstored hre hne
    have hsha : Err.fixtureShaMismatch ∈ FixtureV.shaPart m := by
      unfold FixtureV.shaPart
      rw [hstored]
      simp [hre, hne]
    unfold FixtureV.validate_manifest
    exact List.mem_append.mpr (Or.inr hsha)
  · intro fid dom desc ct origin cmd sp tv rp arts
    unfold Capture.build_manifest
    exact closure_of_core _ (build_core_keys fid dom desc ct origin cmd sp tv rp arts)

/-- Witness for C1: a document whose stored hash is the recomputed
digest produces no mismatch; a document storing 64 `a` characters (a
well-formed but wrong digest) produces the mismatch error. -/
theorem claim_C1_witness :
    Err.fixtureShaMismatch ∉ FixtureV.validate_manifest (fun _ => none)
        [("manifest_sha256",
          JVal.str (sha256_bytes (canonical_manifest_bytes ([] : JObj))))] "." ∧
    Err.fixtureShaMismatch ∈ FixtureV.validate_manifest (fun _ => none)
        [("manifest_sha256",
          JVal.str "aaaaaaaaaaaaaaaaaaaaaaaaaaaaaaaaaaaaaaaaaaaaaaaaaaaaaaaaaaaaaaaa")]
        "." :=
  ⟨(claim_C1_canonical_hash_closure.1 _ _ _ (by rfl)).1,
   claim_C1_canonical_hash_closure.2.1 _ _ _ _ (by rfl) (by decide) (by decide)⟩

/-! ## C3: the redactor's home-path replacement re-triggers the scanner -/

/-- C3 (code bug): the scanner flags `/Users/alice/project`; the
redactor rewrites it to `/home/USER/project`; but `HOME_RE` also
matches `/home/USER`, so `check_redaction` still reports an unredacted
home path on the redactor's own output — the capture/validate round
trip contradicts itself.  The UUID half of the claim does hold: a raw
UUID is flagged and the substituted `<UUID>` placeholder is not. -/
theorem claim_C3_redactor_scanner_divergence :
    Capture.redact_path "/Users/alice/project" = "/home/USER/project" ∧
    FixtureV.check_redaction "/Users/alice/project" "source.command[0]" =
      [.unredactedHome "source.command[0]"] ∧
    FixtureV.check_redaction "/home/USER/project" "source.command[0]" =
      [.unredactedHome "source.command[0]"] ∧
    Capture.redact_id "run 123e4567-e89b-12d3-a456-426614174000" =
      "run <UUID>" ∧
    FixtureV.check_redaction "run 123e4567-e89b-12d3-a456-426614174000"
        "source.command[0]" = [.unredactedUuid "source.command[0]"] ∧
    FixtureV.check_redaction "run <UUID>" "source.command[0]" = [] :=
  ⟨rfl, rfl, rfl, rfl, rfl, rfl⟩

/-! ## C9: a non-object top-level JSON value crashes the validators -/

/-- C9: `load_json` accepts any JSON document, including an array; each
`validate_manifest` then raises an uncaught `AttributeError` on its
first `.get` access instead of returning an error list. -/
theorem claim_C9_nonobject_crash :
    json_loads "[1, 2]" = some (.arr [.int 1, .int 2]) ∧
    load_json "[1, 2]" = .ok (.arr [.int 1, .int 2]) ∧
    FixtureV.validate_manifest_dyn (fun _ => none) (.arr [.int 1, .int 2]) "." =
      .error .attributeError ∧
    E2EV.validate_manifest_dyn (fun _ => none) (.arr [.int 1, .int 2]) "." =
      .error .attributeError ∧
    CapsV.validate_manifest_dyn (.arr [.int 1, .int 2]) =
      .error .attributeError :=
  ⟨by decide, rfl, rfl, rfl, rfl⟩

/-! ## C8: JSONL run_id consistency -/

/-- Discriminator for the two JSONL error messages. -/
def isJsonlErr : Err → Bool
  | .jsonlParse _ _ => true
  | .jsonlRunIdMismatch _ _ => true
  | _ => false

/-- C8: for an e2e manifest with `run_id` `abc` and a jsonl log whose
existing file holds exactly the lines `{"run_id":"abc"}` and
`{"run_id":"xyz"}`, validation reports exactly one jsonl error: a
run_id mismatch on line 2 (and no parse errors). -/
theorem claim_C8_jsonl_run_id :
    (E2EV.validate_manifest
        (fun p => if p = "base/log.jsonl" then
          some "\x7b\"run_id\":\"abc\"\x7d\n\x7b\"run_id\":\"xyz\"\x7d\n"
         else none)
        [("run_id", .str "abc"),
         ("logs", .arr [.obj [("kind", .str "jsonl"),
                              ("path", .str "log.jsonl")]])]
        "base").filter isJsonlErr =
      [.jsonlRunIdMismatch "log.jsonl" 2] := by
  rfl

/-! ## Provenance of error constructors in the e2e validator -/

/-- The e2e hash-mismatch error message. -/
def isE2eShaMismatch : Err → Bool
  | .e2eShaMismatch _ _ => true
  | _ => false

namespace E2EV

theorem vfe_shape {fs : FS} {entry : JObj} {base label : String} {e : Err}
    (he : e ∈ validate_file_entry fs entry base label) :
    (∃ l, e = .fileEntryMissingPath l) ∨ (∃ l p, e = .fileMissing l p) ∨
    (∃ l p, e = .fileBytesMissing l p) ∨
    (∃ l p n a, e = .fileBytesMismatch l p n a) ∨
    (∃ l p, e = .fileShaInvalid l p) ∨
    (∃ l p x y, e = .fileShaMismatch l p x y) := by
  unfold validate_file_entry at he
  split at he
  case h_2 => simp at he; subst he; exact Or.inl ⟨label, rfl⟩
  case h_1 p hp =>
    split at he
    · simp at he; subst he; exact Or.inl ⟨label, rfl⟩
    · split at he
      · simp at he; subst he; exact Or.inr (Or.inl ⟨label, _, rfl⟩)
      · rcases List.mem_append.mp he with he | he
        · split at he
          · split at he
            · simp at he; subst he
              exact Or.inr (Or.inr (Or.inr (Or.inl ⟨label, p, _, _, rfl⟩)))
            · simp at he
          · simp at he; subst he
            exact Or.inr (Or.inr (Or.inl ⟨label, p, rfl⟩))
        · split at he
          · split at he
            · simp at he; subst he
              exact Or.inr (Or.inr (Or.inr (Or.inr (Or.inl ⟨label, p, rfl⟩))))
            · split at he
              · simp at he; subst he
                exact Or.inr (Or.inr (Or.inr (Or.inr (Or.inr ⟨label, p, _, _, rfl⟩))))
              · simp at he
          · simp at he; subst he
            exact Or.inr (Or.inr (Or.inr (Or.inr (Or.inl ⟨label, p, rfl⟩))))

theorem jsonlLineErrors_shape {pv rid : String} {e : Err} :
    ∀ {idx : Nat} {lines : List String}, e ∈ jsonlLineErrors pv rid idx lines →
      isJsonlErr e = true := by
  intro idx lines
  induction lines generalizing idx with
  | nil => intro he; simp [jsonlLineErrors] at he
  | cons l rest ih =>
      intro he
      simp only [jsonlLineErrors] at he
      rcases List.mem_append.mp he with he | he
      · split at he
        · simp at he
        · split at he
          · simp at he; subst he; rfl
          · split at he
            · simp at he
            · simp at he; subst he; rfl
      · exact ih he

theorem vjr_shape {fs : FS} {entry : JObj} {base rid : String} {e : Err}
    (he : e ∈ validate_jsonl_run_id fs entry base rid) :
    isJsonlErr e = true := by
  unfold validate_jsonl_run_id at he
  split at he
  · split at he
    · simp at he
    · split at he
      · simp at he
      · exact jsonlLineErrors_shape he
  · simp at he

theorem missingPart_shape {m : JObj} {e : Err}
    (he : e ∈ missingPart m) : ∃ f, e = .missingField f := by
  unfold missingPart at he
  obtain ⟨f, _, rfl⟩ := List.mem_map.mp he
  exact ⟨f, rfl⟩

theorem versionPart_shape {m : JObj} {e : Err}
    (he : e ∈ versionPart m) :
    (∃ v, e = .versionNotSemver v) ∨ (∃ v, e = .versionUnsupportedMajor v) ∨
      e = .schemaVersionMustBeString := by
  unfold versionPart at he
  split at he
  · unfold validate_version at he
    split at he
    · simp at he; subst he; exact Or.inl ⟨_, rfl⟩
    · split at he
      · simp at he; subst he; exact Or.inr (Or.inl ⟨_, rfl⟩)
      · simp at he
  · simp at he; subst he; exact Or.inr (Or.inr rfl)

theorem idsPart_shape {m : JObj} {e : Err}
    (he : e ∈ idsPart m) :
    e = .runIdMustBeString ∨ e = .suiteMustBeString ∨
      e = .testIdMustBeString := by
  unfold idsPart at he
  rcases List.mem_append.mp he with he | he
  · rcases List.mem_append.mp he with he | he <;>
      split at he <;> simp_all
  · split at he <;> simp_all

theorem timePart_shape {m : JObj} {e : Err}
    (he : e ∈ timePart m) :
    e = .timestampNotRfc3339 ∨ e = .timestampMustBeString := by
  unfold timePart at he
  split at he
  · split at he <;> simp_all
  · simp_all

theorem envPart_shape {m : JObj} {e : Err}
    (he : e ∈ envPart m) :
    (∃ f, e = .envFieldMustBeString f) ∨ e = .envMustBeObject := by
  unfold envPart at he
  split at he
  · obtain ⟨f, _, rfl⟩ := List.mem_map.mp he
    exact Or.inl ⟨f, rfl⟩
  · simp at he; subst he; exact Or.inr rfl

theorem commandEntryErrors_shape {e : Err} :
    ∀ {idx : Nat} {cs : List JVal}, e ∈ commandEntryErrors idx cs →
      (∃ i, e = .commandsEntryMustBeObject i) ∨
      (∃ i, e = .commandsArgvInvalid i) ∨
      (∃ i, e = .commandsExitCodeNotInt i) ∨
      (∃ i, e = .commandsDurationNotInt i) := by
  intro idx cs
  induction cs generalizing idx with
  | nil => intro he; simp [commandEntryErrors] at he
  | cons x rest ih =>
      intro he
      simp only [commandEntryErrors] at he
      rcases List.mem_append.mp he with he | he
      · split at he
        · rcases List.mem_append.mp he with he | he
          · rcases List.mem_append.mp he with he | he
            · split at he
              · split at he
                · simp at he
                · simp at he; subst he; exact Or.inr (Or.inl ⟨_, rfl⟩)
              · simp at he; subst he; exact Or.inr (Or.inl ⟨_, rfl⟩)
            · split at he
              · simp at he
              · simp at he; subst he; exact Or.inr (Or.inr (Or.inl ⟨_, rfl⟩))
          · split at he
            · simp at he
            · simp at he; subst he; exact Or.inr (Or.inr (Or.inr ⟨_, rfl⟩))
        · simp at he; subst he; exact Or.inl ⟨_, rfl⟩
      · exact ih he

theorem commandsPart_shape {m : JObj} {e : Err}
    (he : e ∈ commandsPart m) :
    e = .commandsMustBeNonEmpty ∨
    (∃ i, e = .commandsEntryMustBeObject i) ∨
    (∃ i, e = .commandsArgvInvalid i) ∨
    (∃ i, e = .commandsExitCodeNotInt i) ∨
    (∃ i, e = .commandsDurationNotInt i) := by
  unfold commandsPart at he
  split at he
  · split at he
    · simp at he; subst he; exact Or.inl rfl
    · exact Or.inr (commandEntryErrors_shape he)
  · simp at he; subst he; exact Or.inl rfl

theorem logEntryErrors_shape {fs : FS} {base rid : String} {v : JVal} {e : Err}
    (he : e ∈ logEntryErrors fs base rid v) :
    e = .logEntryMustBeObject ∨ (∃ k, e = .logKindInvalid k) ∨
    (∃ eo, e ∈ validate_file_entry fs eo base "log") ∨
    isJsonlErr e = true := by
  unfold logEntryErrors at he
  split at he
  case h_2 => simp at he; subst he; exact Or.inl rfl
  case h_1 eo =>
    rcases List.mem_append.mp he with he | he
    · rcases List.mem_append.mp he with he | he
      · split at he
        · simp at he
        · simp at he; subst he; exact Or.inr (Or.inl ⟨_, rfl⟩)
      · exact Or.inr (Or.inr (Or.inl ⟨eo, he⟩))
    · split at he
      · exact Or.inr (Or.inr (Or.inr (vjr_shape he)))
      · simp at he

theorem logsPart_shape {fs : FS} {base rid : String} {m : JObj} {e : Err}
    (he : e ∈ logsPart fs base rid m) :
    e = .logsMustBeArray ∨ e = .logEntryMustBeObject ∨
    (∃ k, e = .logKindInvalid k) ∨
    (∃ eo, e ∈ validate_file_entry fs eo base "log") ∨
    isJsonlErr e = true := by
  unfold logsPart at he
  split at he
  · obtain ⟨x, _, hx⟩ := List.mem_flatMap.mp he
    exact Or.inr (logEntryErrors_shape hx)
  · simp at he; subst he; exact Or.inl rfl

theorem artifactEntryErrors_shape {fs : FS} {base : String} {v : JVal} {e : Err}
    (he : e ∈ artifactEntryErrors fs base v) :
    e = .artifactEntryMustBeObject ∨ (∃ k, e = .artifactKindInvalid k) ∨
    (∃ eo, e ∈ validate_file_entry fs eo base "artifact") ∨
    (∃ pv, e = .artifactMissingProfile pv) := by
  unfold artifactEntryErrors at he
  split at he
  case h_2 => simp at he; subst he; exact Or.inl rfl
  case h_1 eo =>
    rcases List.mem_append.mp he with he | he
    · rcases List.mem_append.mp he with he | he
      · split at he
        · simp at he
        · simp at he; subst he; exact Or.inr (Or.inl ⟨_, rfl⟩)
      · exact Or.inr (Or.inr (Or.inl ⟨eo, he⟩))
    · split at he
      · simp at he; subst he; exact Or.inr (Or.inr (Or.inr ⟨_, rfl⟩))
      · simp at he

theorem artifactsPart_shape {fs : FS} {base : String} {m : JObj} {e : Err}
    (he : e ∈ artifactsPart fs base m) :
    e = .artifactsMustBeArray ∨ e = .artifactEntryMustBeObject ∨
    (∃ k, e = .artifactKindInvalid k) ∨
    (∃ eo, e ∈ validate_file_entry fs eo base "artifact") ∨
    (∃ pv, e = .artifactMissingProfile pv) := by
  unfold artifactsPart at he
  split at he
  · obtain ⟨x, _, hx⟩ := List.mem_flatMap.mp he
    exact Or.inr (artifactEntryErrors_shape hx)
  · simp at he; subst he; exact Or.inl rfl

/-- An e2e hash-mismatch error can only come from the self-hash check. -/
theorem shaMismatch_mem_shaPart {fs : FS} {m : JObj} {base : String} {e : Err}
    (he : e ∈ validate_manifest fs m base)
    (hc : isE2eShaMismatch e = true) : e ∈ shaPart m := by
  unfold validate_manifest validate_schema_with_jsonschema at he
  rcases List.mem_append.mp he with he | he
  · rcases List.mem_append.mp he with he | he
    · rcases List.mem_append.mp he with he | he
      · rcases List.mem_append.mp he with he | he
        · rcases List.mem_append.mp he with he | he
          · rcases List.mem_append.mp he with he | he
            · rcases List.mem_append.mp he with he | he
              · rcases List.mem_append.mp he with he | he
                · rcases List.mem_append.mp he with he | he
                  · simp at he
                  · obtain ⟨f, rfl⟩ := missingPart_shape he; cases hc
                · rcases versionPart_shape he with ⟨v, rfl⟩ | ⟨v, rfl⟩ | rfl <;>
                    cases hc
              · rcases idsPart_shape he with rfl | rfl | rfl <;> cases hc
            · rcases timePart_shape he with rfl | rfl <;> cases hc
          · rcases envPart_shape he with ⟨f, rfl⟩ | rfl <;> cases hc
        · exact he
      · rcases commandsPart_shape he with rfl | ⟨i, rfl⟩ | ⟨i, rfl⟩ |
          ⟨i, rfl⟩ | ⟨i, rfl⟩ <;> cases hc
    · rcases logsPart_shape he with rfl | rfl | ⟨k, rfl⟩ | ⟨eo, hvfe⟩ | hj
      · cases hc
      · cases hc
      · cases hc
      · rcases vfe_shape hvfe with ⟨l, rfl⟩ | ⟨l, p, rfl⟩ | ⟨l, p, rfl⟩ |
          ⟨l, p, n, a, rfl⟩ | ⟨l, p, rfl⟩ | ⟨l, p, x, y, rfl⟩ <;> cases hc
      · cases e <;> simp_all [isJsonlErr, isE2eShaMismatch]
  · rcases artifactsPart_shape he with rfl | rfl | ⟨k, rfl⟩ | ⟨eo, hvfe⟩ |
      ⟨pv, rfl⟩
    · cases hc
    · cases hc
    · cases hc
    · rcases vfe_shape hvfe with ⟨l, rfl⟩ | ⟨l, p, rfl⟩ | ⟨l, p, rfl⟩ |
        ⟨l, p, n, a, rfl⟩ | ⟨l, p, rfl⟩ | ⟨l, p, x, y, rfl⟩ <;> cases hc
    · cases hc

/-- The only errors of `shaPart`. -/
theorem shaPart_shape {m : JObj} {e : Err} (he : e ∈ shaPart m) :
    e = .e2eShaNotHex ∨ (∃ x y, e = .e2eShaMismatch x y) ∨
      e = .e2eShaMustBeString := by
  unfold shaPart at he
  split at he
  · rcases List.mem_append.mp he with he | he
    · split at he <;> simp_all
    · split at he <;> simp_all
  · simp at he; subst he; exact Or.inr (Or.inr rfl)

/-- With an empty `run_id`, a log entry's errors contain no JSONL
errors: the guard `entry.get("kind") == "jsonl" and run_id` is false. -/
theorem logEntryErrors_jsonlFree {fs : FS} {base : String} {v : JVal} {e : Err}
    (he : e ∈ logEntryErrors fs base "" v) : isJsonlErr e = false := by
  unfold logEntryErrors at he
  split at he
  case h_2 => simp at he; subst he; rfl
  case h_1 eo =>
    have hcond : ¬(jget eo "kind" = some (JVal.str "jsonl") ∧
        ("" : String) ≠ "") := by simp
    rw [if_neg hcond, List.append_nil] at he
    rcases List.mem_append.mp he with he | he
    · split at he
      · simp at he
      · simp at he; subst he; rfl
    · rcases vfe_shape he with ⟨l, rfl⟩ | ⟨l, p, rfl⟩ | ⟨l, p, rfl⟩ |
        ⟨l, p, n, a, rfl⟩ | ⟨l, p, rfl⟩ | ⟨l, p, x, y, rfl⟩ <;> rfl

/-- With an empty `run_id`, the whole `logs` section is JSONL-free. -/
theorem logsPart_jsonlFree {fs : FS} {base : String} {m : JObj} {e : Err}
    (he : e ∈ logsPart fs base "" m) : isJsonlErr e = false := by
  unfold logsPart at he
  split at he
  · obtain ⟨x, _, hx⟩ := List.mem_flatMap.mp he
    exact logEntryErrors_jsonlFree hx
  · simp at he; subst he; rfl

/-- When the manifest `run_id` is absent or not a string, the variable
`run_id` used by the validator is the empty string. -/
theorem runIdStr_empty {m : JObj}
    (hrun : ∀ s, jget m "run_id" ≠ some (.str s)) : runIdStr m = "" := by
  unfold runIdStr
  split
  case h_1 s heq => exact absurd heq (hrun s)
  case h_2 => rfl

end E2EV

/-- A list element's image is a sublist of the flatMap. -/
theorem sublist_flatMap_of_mem {α β : Type} {x : α} {ls : List α}
    (f : α → List β) (hx : x ∈ ls) : List.Sublist (f x) (ls.flatMap f) := by
  induction ls with
  | nil => cases hx
  | cons y rest ih =>
      rcases List.mem_cons.mp hx with rfl | hx2
      · exact List.sublist_append_left (f x) (rest.flatMap f)
      · exact (ih hx2).trans (List.sublist_append_right (f y) (rest.flatMap f))

/-! ## C10: JSONL check skipped when run_id is absent or non-string -/

/-- C10: if the e2e manifest's `run_id` is absent or not a string, no
JSONL parse or run_id-mismatch error is reported for any log entry,
while each log entry's existence/size/digest checks (its
`validate_file_entry` errors) still appear in the validator's output. -/
theorem claim_C10_jsonl_skipped_without_run_id :
    ∀ (fs : FS) (base : String) (m : JObj),
      (∀ s, jget m "run_id" ≠ some (.str s)) →
      (∀ e ∈ E2EV.validate_manifest fs m base, isJsonlErr e = false) ∧
      (∀ (ls : List JVal) (entry : JObj),
        jget m "logs" = some (.arr ls) → JVal.obj entry ∈ ls →
        List.Sublist (E2EV.validate_file_entry fs entry base "log")
          (E2EV.validate_manifest fs m base)) := by
  intro fs base m hrun
  have hrid : E2EV.runIdStr m = "" := E2EV.runIdStr_empty hrun
  constructor
  · intro e he
    unfold E2EV.validate_manifest validate_schema_with_jsonschema at he
    rw [hrid] at he
    rcases List.mem_append.mp he with he | he
    · rcases List.mem_append.mp he with he | he
      · rcases List.mem_append.mp he with he | he
        · rcases List.mem_append.mp he with he | he
          · rcases List.mem_append.mp he with he | he
            · rcases List.mem_append.mp he with he | he
              · rcases List.mem_append.mp he with he | he
                · rcases List.mem_append.mp he with he | he
                  · rcases List.mem_append.mp he with he | he
                    · simp at he
                    · obtain ⟨f, rfl⟩ := E2EV.missingPart_shape he; rfl
                  · rcases E2EV.versionPart_shape he with ⟨v, rfl⟩ |
                      ⟨v, rfl⟩ | rfl <;> rfl
                · rcases E2EV.idsPart_shape he with rfl | rfl | rfl <;> rfl
              · rcases E2EV.timePart_shape he with rfl | rfl <;> rfl
            · rcases E2EV.envPart_shape he with ⟨f, rfl⟩ | rfl <;> rfl
          · rcases E2EV.shaPart_shape he with rfl | ⟨x, y, rfl⟩ | rfl <;> rfl
        · rcases E2EV.commandsPart_shape he with rfl | ⟨i, rfl⟩ | ⟨i, rfl⟩ |
            ⟨i, rfl⟩ | ⟨i, rfl⟩ <;> rfl
      · exact E2EV.logsPart_jsonlFree he
    · rcases E2EV.artifactsPart_shape he with rfl | rfl | ⟨k, rfl⟩ |
        ⟨eo, hvfe⟩ | ⟨pv, rfl⟩
      · rfl
      · rfl
      · rfl
      · rcases E2EV.vfe_shape hvfe with ⟨l, rfl⟩ | ⟨l, p, rfl⟩ | ⟨l, p, rfl⟩ |
          ⟨l, p, n, a, rfl⟩ | ⟨l, p, rfl⟩ | ⟨l, p, x, y, rfl⟩ <;> rfl
      · rfl
  · intro ls entry hlogs hmem
    have h1 : List.Sublist (E2EV.validate_file_entry fs entry base "log")
        (E2EV.logEntryErrors fs base (E2EV.runIdStr m) (JVal.obj entry)) := by
      show List.Sublist (E2EV.validate_file_entry fs entry base "log")
        (((if E2EV.logKindOk (jget entry "kind") then []
           else [.logKindInvalid (jget entry "kind")]) ++
          E2EV.validate_file_entry fs entry base "log") ++
         (if jget entry "kind" = some (.str "jsonl") ∧
              E2EV.runIdStr m ≠ "" then
            E2EV.validate_jsonl_run_id fs entry base (E2EV.runIdStr m)
          else []))
      exact (List.sublist_append_right _ _).trans (List.sublist_append_left _ _)
    have h2 : List.Sublist
        (E2EV.logEntryErrors fs base (E2EV.runIdStr m) (JVal.obj entry))
        (E2EV.logsPart fs base (E2EV.runIdStr m) m) := by
      unfold E2EV.logsPart
      rw [hlogs]
      exact sublist_flatMap_of_mem _ hmem
    have h3 : List.Sublist (E2EV.logsPart fs base (E2EV.runIdStr m) m)
        (E2EV.validate_manifest fs m base) := by
      show List.Sublist _ (_ ++ E2EV.logsPart fs base (E2EV.runIdStr m) m ++
        E2EV.artifactsPart fs base m)
      exact (List.sublist_append_right _ _).trans (List.sublist_append_left _ _)
    exact (h1.trans h2).trans h3

/-- Witness for C10 at a manifest with no `run_id` and one jsonl log
entry over an empty filesystem. -/
theorem claim_C10_witness :
    (∀ e ∈ E2EV.validate_manifest (fun _ => none)
        [("logs", .arr [.obj [("kind", .str "jsonl"),
                              ("path", .str "l.jsonl")]])] "b",
      isJsonlErr e = false) ∧
    List.Sublist
      (E2EV.validate_file_entry (fun _ => none)
        [("kind", .str "jsonl"), ("path", .str "l.jsonl")] "b" "log")
      (E2EV.validate_manifest (fun _ => none)
        [("logs", .arr [.obj [("kind", .str "jsonl"),
                              ("path", .str "l.jsonl")]])] "b") := by
  have h := claim_C10_jsonl_skipped_without_run_id (fun _ => none) "b"
    [("logs", .arr [.obj [("kind", .str "jsonl"), ("path", .str "l.jsonl")]])]
    (by
      intro s h
      have h2 : (none : Option JVal) = some (.str s) := h
      exact Option.noConfusion h2)
  exact ⟨h.1, h.2 _ _ rfl (by simp)⟩

/-! ## C4: gating of the self-hash comparison on well-formedness -/

/-- C4 counterexample: in the e2e validator a malformed (non-hex) but
string-typed `manifest_sha256` produces BOTH the `not sha256 hex`
error AND the hash-mismatch error — the comparison is not gated on
well-formedness there.  The manifest `\x7b"manifest_sha256":"zz"\x7d`
canonicalizes (with the field removed) to `\x7b\x7d`, whose SHA-256 is
the digest below. -/
theorem claim_C4_counterexample :
    Err.e2eShaNotHex ∈ E2EV.validate_manifest (fun _ => none)
      [("manifest_sha256", JVal.str "zz")] "." ∧
    Err.e2eShaMismatch "zz"
      "44136fa355b3678a1146ad16f7e8649e94fb4fc21fe77e8310c060f61caaff8a" ∈
      E2EV.validate_manifest (fun _ => none)
      [("manifest_sha256", JVal.str "zz")] "." := by
  have hdig : sha256_bytes (canonical_manifest_bytes
      [("manifest_sha256", JVal.str "zz")]) =
      "44136fa355b3678a1146ad16f7e8649e94fb4fc21fe77e8310c060f61caaff8a" := by
    decide
  have hbad : sha256Re "zz" = false := by decide
  have hne : ("zz" : String) ≠ sha256_bytes (canonical_manifest_bytes
      [("manifest_sha256", JVal.str "zz")]) := by
    rw [hdig]; decide
  have hsha : E2EV.shaPart [("manifest_sha256", JVal.str "zz")] =
      [Err.e2eShaNotHex, Err.e2eShaMismatch "zz"
        "44136fa355b3678a1146ad16f7e8649e94fb4fc21fe77e8310c060f61caaff8a"] := by
    unfold E2EV.shaPart
    rw [show jget [("manifest_sha256", JVal.str "zz")] "manifest_sha256" =
      some (JVal.str "zz") from rfl]
    simp [hbad, hne, hdig]
  constructor
  · unfold E2EV.validate_manifest
    refine List.mem_append_left _ (List.mem_append_left _
      (List.mem_append_left _ (List.mem_append_right _ ?_)))
    rw [hsha]; simp
  · unfold E2EV.validate_manifest
    refine List.mem_append_left _ (List.mem_append_left _
      (List.mem_append_left _ (List.mem_append_right _ ?_)))
    rw [hsha]; simp

/-- C4 (amended): the gating claim holds for the FIXTURE validator —
whenever `manifest_sha256` is absent or not a well-formed hex string,
it reports the single `must be sha256 hex` defect and never a
mismatch — but NOT for the e2e validator: there a malformed string
value yields the `not sha256 hex` error AND the comparison still runs
(a differing digest adds the mismatch error); only a non-string value
is gated, reported as the single `must be string` defect with no
mismatch possible. -/
theorem claim_C4_sha_gating :
    (∀ (fs : FS) (m : JObj) (base : String),
      (∀ h, jget m "manifest_sha256" = some (JVal.str h) →
        sha256Re h = false) →
      Err.fixtureShaMustBeHex ∈ FixtureV.validate_manifest fs m base ∧
      Err.fixtureShaMismatch ∉ FixtureV.validate_manifest fs m base) ∧
    (∀ (fs : FS) (m : JObj) (base : String) (h : String),
      jget m "manifest_sha256" = some (JVal.str h) →
      sha256Re h = false →
      h ≠ sha256_bytes (canonical_manifest_bytes m) →
      Err.e2eShaNotHex ∈ E2EV.validate_manifest fs m base ∧
      Err.e2eShaMismatch h (sha256_bytes (canonical_manifest_bytes m)) ∈
        E2EV.validate_manifest fs m base) ∧
    (∀ (fs : FS) (m : JObj) (base : String),
      (∀ s, jget m "manifest_sha256" ≠ some (JVal.str s)) →
      Err.e2eShaMustBeString ∈ E2EV.validate_manifest fs m base ∧
      ∀ x y, Err.e2eShaMismatch x y ∉ E2EV.validate_manifest fs m base) := by
  refine ⟨?_, ?_, ?_⟩
  · intro fs m base hgate
    have hsha : FixtureV.shaPart m = [Err.fixtureShaMustBeHex] := by
      unfold FixtureV.shaPart
      split
      · next h heq => simp [hgate h heq]
      · rfl
    constructor
    · unfold FixtureV.validate_manifest
      refine List.mem_append_right _ ?_
      rw [hsha]; simp
    · intro hmem
      have h2 := FixtureV.shaErr_mem_shaPart hmem rfl
      rw [hsha] at h2
      simp at h2
  · intro fs m base h hm hbad hne
    have hsha : E2EV.shaPart m =
        [Err.e2eShaNotHex,
         Err.e2eShaMismatch h (sha256_bytes (canonical_manifest_bytes m))] := by
      unfold E2EV.shaPart
      rw [hm]
      simp [hbad, hne]
    constructor
    · unfold E2EV.validate_manifest
      refine List.mem_append_left _ (List.mem_append_left _
        (List.mem_append_left _ (List.mem_append_right _ ?_)))
      rw [hsha]; simp
    · unfold E2EV.validate_manifest
      refine List.mem_append_left _ (List.mem_append_left _
        (List.mem_append_left _ (List.mem_append_right _ ?_)))
      rw [hsha]; simp
  · intro fs m base hns
    have hsha : E2EV.shaPart m = [Err.e2eShaMustBeString] := by
      unfold E2EV.shaPart
      split
      · next s heq => exact absurd heq (hns s)
      · rfl
    constructor
    · unfold E2EV.validate_manifest
      refine List.mem_append_left _ (List.mem_append_left _
        (List.mem_append_left _ (List.mem_append_right _ ?_)))
      rw [hsha]; simp
    · intro x y hmem
      have h2 := E2EV.shaMismatch_mem_shaPart hmem rfl
      rw [hsha] at h2
      simp at h2

/-- Witness for C4: the three gating conclusions at concrete
manifests — a manifest without the field for the fixture and
non-string e2e conjuncts, and the `"zz"` manifest for the malformed
e2e conjunct. -/
theorem claim_C4_witness :
    Err.fixtureShaMustBeHex ∈
      FixtureV.validate_manifest (fun _ => none) [] "." ∧
    Err.e2eShaNotHex ∈ E2EV.validate_manifest (fun _ => none)
      [("manifest_sha256", JVal.str "zz")] "." ∧
    Err.e2eShaMustBeString ∈
      E2EV.validate_manifest (fun _ => none) [] "." := by
  refine ⟨(claim_C4_sha_gating.1 (fun _ => none) [] "." ?_).1,
    (claim_C4_sha_gating.2.1 (fun _ => none)
      [("manifest_sha256", JVal.str "zz")] "." "zz" rfl (by decide)
      (by decide)).1,
    (claim_C4_sha_gating.2.2 (fun _ => none) [] "." ?_).1⟩
  · intro h hh
    exact Option.noConfusion hh
  · intro s hh
    exact Option.noConfusion hh

/-! ## C5: independent size and digest errors per file entry -/

/-- C5: for a file entry whose resolved file exists, whose recorded
`bytes` differs from the actual length and whose well-formed recorded
`sha256` differs from the actual digest, both validators report
exactly the bytes-mismatch error followed by the sha-mismatch error —
both evaluated, neither suppressing the other (for the fixture
validator, with a valid `redaction_profile` on the entry so that no
third error appears); and for an entry whose resolved file does not
exist, each validator reports exactly the one missing-file error, with
no size or digest checks. -/
theorem claim_C5_independent_size_digest_errors :
    (∀ (fs : FS) (entry : JObj) (base label p content : String)
        (n : Int) (h : String),
      jget entry "path" = some (JVal.str p) → p ≠ "" →
      fs (resolvePath base p) = some content →
      jget entry "bytes" = some (JVal.int n) →
      jget entry "sha256" = some (JVal.str h) →
      sha256Re h = true →
      n ≠ ((utf8Encode content).length : Int) →
      h ≠ sha256_bytes (utf8Encode content) →
      E2EV.validate_file_entry fs entry base label =
        [Err.fileBytesMismatch label p n (utf8Encode content).length,
         Err.fileShaMismatch label p h (sha256_bytes (utf8Encode content))]) ∧
    (∀ (fs : FS) (entry : JObj) (base label p : String),
      jget entry "path" = some (JVal.str p) → p ≠ "" →
      fs (resolvePath base p) = none →
      E2EV.validate_file_entry fs entry base label =
        [Err.fileMissing label (resolvePath base p)]) ∧
    (∀ (fs : FS) (entry : JObj) (base p content : String)
        (n : Int) (h : String),
      jget entry "path" = some (JVal.str p) → p ≠ "" →
      fs (resolvePath base p) = some content →
      jget entry "bytes" = some (JVal.int n) →
      jget entry "sha256" = some (JVal.str h) →
      sha256Re h = true →
      profileMem (jget entry "redaction_profile") = true →
      n ≠ ((utf8Encode content).length : Int) →
      h ≠ sha256_bytes (utf8Encode content) →
      FixtureV.validate_artifact_entry fs entry base =
        [Err.artifactBytesMismatch p n (utf8Encode content).length,
         Err.artifactShaMismatch p h (sha256_bytes (utf8Encode content))]) ∧
    (∀ (fs : FS) (entry : JObj) (base p : String),
      jget entry "path" = some (JVal.str p) → p ≠ "" →
      fs (resolvePath base p) = none →
      FixtureV.validate_artifact_entry fs entry base =
        [Err.artifactFileMissing (resolvePath base p)]) := by
  refine ⟨?_, ?_, ?_, ?_⟩
  · intro fs entry base label p content n h hpath hp hfs hbytes hsha hhex hn hne
    unfold E2EV.validate_file_entry
    simp [hpath, hp, hfs, hbytes, hsha, hhex, hn, hne]
  · intro fs entry base label p hpath hp hfs
    unfold E2EV.validate_file_entry
    simp [hpath, hp, hfs]
  · intro fs entry base p content n h hpath hp hfs hbytes hsha hhex hprof hn hne
    unfold FixtureV.validate_artifact_entry
    simp [hpath, hp, hfs, hbytes, hsha, hhex, hprof, hn, hne]
  · intro fs entry base p hpath hp hfs
    unfold FixtureV.validate_artifact_entry
    simp [hpath, hp, hfs]

/-- Witness for C5: a one-byte file `x` recorded with `bytes` 2 and a
well-formed but wrong digest yields exactly the two mismatch errors in
both validators, and a missing file yields exactly the one
missing-file error. -/
theorem claim_C5_witness :
    E2EV.validate_file_entry
      (fun q => if q = "./a.txt" then some "x" else none)
      [("path", JVal.str "a.txt"), ("bytes", JVal.int 2),
       ("sha256", JVal.str
         "aaaaaaaaaaaaaaaaaaaaaaaaaaaaaaaaaaaaaaaaaaaaaaaaaaaaaaaaaaaaaaaa")]
      "." "log" =
      [Err.fileBytesMismatch "log" "a.txt" 2 (utf8Encode "x").length,
       Err.fileShaMismatch "log" "a.txt"
         "aaaaaaaaaaaaaaaaaaaaaaaaaaaaaaaaaaaaaaaaaaaaaaaaaaaaaaaaaaaaaaaa"
         (sha256_bytes (utf8Encode "x"))] ∧
    E2EV.validate_file_entry (fun _ => none)
      [("path", JVal.str "a.txt")] "." "log" =
      [Err.fileMissing "log" "./a.txt"] ∧
    FixtureV.validate_artifact_entry
      (fun q => if q = "./a.txt" then some "x" else none)
      [("path", JVal.str "a.txt"), ("bytes", JVal.int 2),
       ("sha256", JVal.str
         "aaaaaaaaaaaaaaaaaaaaaaaaaaaaaaaaaaaaaaaaaaaaaaaaaaaaaaaaaaaaaaaa"),
       ("redaction_profile", JVal.str "safe")] "." =
      [Err.artifactBytesMismatch "a.txt" 2 (utf8Encode "x").length,
       Err.artifactShaMismatch "a.txt"
         "aaaaaaaaaaaaaaaaaaaaaaaaaaaaaaaaaaaaaaaaaaaaaaaaaaaaaaaaaaaaaaaa"
         (sha256_bytes (utf8Encode "x"))] ∧
    FixtureV.validate_artifact_entry (fun _ => none)
      [("path", JVal.str "a.txt")] "." =
      [Err.artifactFileMissing "./a.txt"] := by
  refine ⟨claim_C5_independent_size_digest_errors.1 _ _ "." "log" "a.txt" "x"
      2 _ rfl (by decide) rfl rfl rfl (by decide) (by decide) ?_,
    claim_C5_independent_size_digest_errors.2.1 _ _ "." "log" "a.txt"
      rfl (by decide) rfl,
    claim_C5_independent_size_digest_errors.2.2.1 _ _ "." "a.txt" "x"
      2 _ rfl (by decide) rfl rfl rfl (by decide) rfl (by decide) ?_,
    claim_C5_independent_size_digest_errors.2.2.2 _ _ "." "a.txt"
      rfl (by decide) rfl⟩
  · decide
  · decide

/-! ## C6: where `redaction_profile` is required -/

/-- Helper for C6: a fixture artifact entry whose file exists and whose
`bytes` and `sha256` both match yields exactly the
`redaction_profile invalid` error when the profile is absent or not
one of the four allowed names. -/
theorem fixture_profile_check {fs : FS} {entry : JObj} {base p content : String}
    (hpath : jget entry "path" = some (JVal.str p)) (hp : p ≠ "")
    (hfs : fs (resolvePath base p) = some content)
    (hbytes : jget entry "bytes" =
      some (JVal.int ((utf8Encode content).length : Int)))
    (hsha : jget entry "sha256" =
      some (JVal.str (sha256_bytes (utf8Encode content))))
    (hprof : profileMem (jget entry "redaction_profile") = false) :
    FixtureV.validate_artifact_entry fs entry base =
      [Err.artifactProfileInvalid p] := by
  unfold FixtureV.validate_artifact_entry
  simp [hpath, hp, hfs, hbytes, hsha, hprof, sha256Re_sha256_bytes]

/-- C6 counterexample: a fixture artifact entry that omits
`redaction_profile` is NOT accepted even when its file exists and its
`bytes` and `sha256` are correct — the fixture validator reports
`artifact redaction_profile invalid`, so omission is not allowed
there. -/
theorem claim_C6_counterexample :
    FixtureV.validate_artifact_entry
      (fun q => if q = "./a.txt" then some "x" else none)
      [("path", JVal.str "a.txt"),
       ("bytes", JVal.int ((utf8Encode "x").length : Int)),
       ("sha256", JVal.str (sha256_bytes (utf8Encode "x")))] "." =
      [Err.artifactProfileInvalid "a.txt"] :=
  fixture_profile_check rfl (by decide) rfl rfl rfl rfl

/-- C6 (amended): in the e2e validator the cross-field rule is as
claimed — an artifact of a redaction-required kind without a
`redaction_profile` gets the missing-profile error, and an artifact of
any other kind never does — but fixture artifact entries are NOT
exempt: once the file exists, an absent (or unlisted) profile is the
`redaction_profile invalid` error, and an otherwise-valid entry passes
only with one of the four allowed profiles. -/
theorem claim_C6_profile_requirements :
    (∀ (fs : FS) (eo : JObj) (base : String),
      E2EV.redactionRequired (jget eo "kind") = true →
      jget eo "redaction_profile" = none →
      Err.artifactMissingProfile (jget eo "path") ∈
        E2EV.artifactEntryErrors fs base (JVal.obj eo)) ∧
    (∀ (fs : FS) (eo : JObj) (base : String),
      E2EV.redactionRequired (jget eo "kind") = false →
      ∀ pv, Err.artifactMissingProfile pv ∉
        E2EV.artifactEntryErrors fs base (JVal.obj eo)) ∧
    (∀ (fs : FS) (entry : JObj) (base p content : String),
      jget entry "path" = some (JVal.str p) → p ≠ "" →
      fs (resolvePath base p) = some content →
      jget entry "bytes" =
        some (JVal.int ((utf8Encode content).length : Int)) →
      jget entry "sha256" =
        some (JVal.str (sha256_bytes (utf8Encode content))) →
      profileMem (jget entry "redaction_profile") = false →
      FixtureV.validate_artifact_entry fs entry base =
        [Err.artifactProfileInvalid p]) ∧
    (∀ (fs : FS) (entry : JObj) (base p content : String),
      jget entry "path" = some (JVal.str p) → p ≠ "" →
      fs (resolvePath base p) = some content →
      jget entry "bytes" =
        some (JVal.int ((utf8Encode content).length : Int)) →
      jget entry "sha256" =
        some (JVal.str (sha256_bytes (utf8Encode content))) →
      profileMem (jget entry "redaction_profile") = true →
      FixtureV.validate_artifact_entry fs entry base = []) := by
  refine ⟨?_, ?_, ?_, ?_⟩
  · intro fs eo base hreq hprof
    unfold E2EV.artifactEntryErrors
    refine List.mem_append_right _ ?_
    split
    · simp
    · next hne =>
      rw [hprof] at hne
      simp [hreq] at hne
  · intro fs eo base hex pv hmem
    unfold E2EV.artifactEntryErrors at hmem
    rcases List.mem_append.mp hmem with hm | hm
    · rcases List.mem_append.mp hm with hm | hm
      · split at hm <;> simp_all
      · rcases E2EV.vfe_shape hm with ⟨l, h⟩ | ⟨l, q, h⟩ | ⟨l, q, h⟩ |
          ⟨l, q, n, a, h⟩ | ⟨l, q, h⟩ | ⟨l, q, x, y, h⟩ <;>
          exact Err.noConfusion h
    · split at hm
      · next hc => rw [hex] at hc; simp at hc
      · simp at hm
  · intro fs entry base p content hpath hp hfs hbytes hsha hprof
    exact fixture_profile_check hpath hp hfs hbytes hsha hprof
  · intro fs entry base p content hpath hp hfs hbytes hsha hprof
    unfold FixtureV.validate_artifact_entry
    simp [hpath, hp, hfs, hbytes, hsha, hprof, sha256Re_sha256_bytes]

/-- Witness for C6 at concrete entries: a `snapshot` e2e artifact
without a profile is flagged, an `other` e2e artifact without one is
not, a fixture entry without one is flagged, and a fixture entry with
profile `safe` passes. -/
theorem claim_C6_witness :
    Err.artifactMissingProfile none ∈
      E2EV.artifactEntryErrors (fun _ => none) "."
        (JVal.obj [("kind", JVal.str "snapshot")]) ∧
    Err.artifactMissingProfile none ∉
      E2EV.artifactEntryErrors (fun _ => none) "."
        (JVal.obj [("kind", JVal.str "other")]) ∧
    FixtureV.validate_artifact_entry
      (fun q => if q = "./b.txt" then some "y" else none)
      [("path", JVal.str "b.txt"),
       ("bytes", JVal.int ((utf8Encode "y").length : Int)),
       ("sha256", JVal.str (sha256_bytes (utf8Encode "y")))] "." =
      [Err.artifactProfileInvalid "b.txt"] ∧
    FixtureV.validate_artifact_entry
      (fun q => if q = "./b.txt" then some "y" else none)
      [("path", JVal.str "b.txt"),
       ("bytes", JVal.int ((utf8Encode "y").length : Int)),
       ("sha256", JVal.str (sha256_bytes (utf8Encode "y"))),
       ("redaction_profile", JVal.str "safe")] "." = [] := by
  refine ⟨?_, ?_, ?_, ?_⟩
  · exact claim_C6_profile_requirements.1 (fun _ => none)
      [("kind", JVal.str "snapshot")] "." rfl rfl
  · exact claim_C6_profile_requirements.2.1 (fun _ => none)
      [("kind", JVal.str "other")] "." rfl none
  · exact claim_C6_profile_requirements.2.2.1 _ _ "."
      "b.txt" "y" rfl (by decide) rfl rfl rfl rfl
  · exact claim_C6_profile_requirements.2.2.2 _ _ "." "b.txt" "y"
      rfl (by decide) rfl rfl rfl rfl

/-! ## C7: scanner coverage of the source block -/

/-- Membership of the home-path violation in `check_redaction`. -/
theorem mem_check_redaction_home {s l : String}
    (h : homeSearch s = true) :
    Err.unredactedHome l ∈ FixtureV.check_redaction s l := by
  unfold FixtureV.check_redaction
  exact List.mem_append_left _ (List.mem_append_left _ (by simp [h]))

/-- Membership of the UUID violation in `check_redaction`. -/
theorem mem_check_redaction_uuid {s l : String}
    (h : uuidSearch s = true) :
    Err.unredactedUuid l ∈ FixtureV.check_redaction s l := by
  unfold FixtureV.check_redaction
  exact List.mem_append_left _ (List.mem_append_right _ (by simp [h]))

/-- Membership of the hex-token violation in `check_redaction`. -/
theorem mem_check_redaction_hex {s l : String}
    (h : hexSearch s = true) :
    Err.unredactedHex l ∈ FixtureV.check_redaction s l := by
  unfold FixtureV.check_redaction
  exact List.mem_append_right _ (by simp [h])

/-- Per-item loop of `validate_source`: an error of the redaction scan
of the string at position `k`, labelled with index `idx + k`, is among
the loop's errors when the loop starts numbering at `idx`. -/
theorem sourceListErrors_mem {key : String} {e : Err} :
    ∀ (items : List JVal) (idx k : Nat) (s : String),
    items.get? k = some (JVal.str s) →
    e ∈ FixtureV.check_redaction s
      ("source." ++ key ++ "[" ++ toString (idx + k) ++ "]") →
    e ∈ FixtureV.sourceListErrors key idx items := by
  intro items
  induction items with
  | nil =>
    intro idx k s hget
    simp at hget
  | cons a rest ih =>
    intro idx k s hget hmem
    cases k with
    | zero =>
      have ha : a = JVal.str s := by simpa using hget
      subst ha
      have hm : e ∈ FixtureV.check_redaction s
          ("source." ++ key ++ "[" ++ toString idx ++ "]") := by
        simpa using hmem
      exact List.mem_append_left _ hm
    | succ n =>
      have hg : rest.get? n = some (JVal.str s) := by simpa using hget
      have harith : idx + 1 + n = idx + (n + 1) := by omega
      refine List.mem_append_right _ (ih (idx + 1) n s hg ?_)
      rw [harith]
      exact hmem

/-- Lifting a per-item error of the `command` / `paths` scan into
`sourceKeyPart`. -/
theorem sourceKeyPart_mem {src : JObj} {key : String} {items : List JVal}
    {e : Err} (hk : jget src key = some (JVal.arr items))
    (hmem : e ∈ FixtureV.sourceListErrors key 0 items) :
    e ∈ FixtureV.sourceKeyPart src key := by
  unfold FixtureV.sourceKeyPart
  rw [hk]
  exact hmem

/-- C7 counterexample: the scanner's home-path test matches
`/Users/alice/project`, yet a source block whose `origin` is exactly
that string validates with NO errors — `validate_source` never scans
`origin`, only type-checks it. -/
theorem claim_C7_counterexample :
    homeSearch "/Users/alice/project" = true ∧
    FixtureV.validate_source
      [("origin", JVal.str "/Users/alice/project")] = [] :=
  ⟨by decide, rfl⟩

/-- C7 (amended): the scanner inspects each entry of `command` and of
`paths` — a home path, UUID or 32+-character hex token in any such
entry produces the violation labelled with that entry — but `origin`
is only type-checked, never scanned: a source block whose sole field
is any non-empty `origin` string validates without error. -/
theorem claim_C7_source_scan_coverage :
    (∀ o : String, o ≠ "" →
      FixtureV.validate_source [("origin", JVal.str o)] = []) ∧
    (∀ (src : JObj) (items : List JVal) (k : Nat) (s : String),
      jget src "command" = some (JVal.arr items) →
      items.get? k = some (JVal.str s) →
      homeSearch s = true →
      Err.unredactedHome ("source.command[" ++ toString k ++ "]") ∈
        FixtureV.validate_source src) ∧
    (∀ (src : JObj) (items : List JVal) (k : Nat) (s : String),
      jget src "paths" = some (JVal.arr items) →
      items.get? k = some (JVal.str s) →
      uuidSearch s = true →
      Err.unredactedUuid ("source.paths[" ++ toString k ++ "]") ∈
        FixtureV.validate_source src) ∧
    (∀ (src : JObj) (items : List JVal) (k : Nat) (s : String),
      jget src "command" = some (JVal.arr items) →
      items.get? k = some (JVal.str s) →
      hexSearch s = true →
      Err.unredactedHex ("source.command[" ++ toString k ++ "]") ∈
        FixtureV.validate_source src) := by
  refine ⟨?_, ?_, ?_, ?_⟩
  · intro o ho
    unfold FixtureV.validate_source FixtureV.sourceKeyPart
    rw [show jget [("origin", JVal.str o)] "origin" =
        some (JVal.str o) from rfl,
      show jget [("origin", JVal.str o)] "command" = none from rfl,
      show jget [("origin", JVal.str o)] "paths" = none from rfl,
      show jget [("origin", JVal.str o)] "notes" = none from rfl]
    simp [ho]
  · intro src items k s hk hget hhome
    rw [show k = 0 + k from (Nat.zero_add k).symm]
    have hm := sourceListErrors_mem items 0 k s hget
      (@mem_check_redaction_home s
        ("source." ++ "command" ++ "[" ++ toString (0 + k) ++ "]") hhome)
    unfold FixtureV.validate_source
    exact List.mem_append_left _ (List.mem_append_left _
      (List.mem_append_right _ (sourceKeyPart_mem hk hm)))
  · intro src items k s hk hget huuid
    rw [show k = 0 + k from (Nat.zero_add k).symm]
    have hm := sourceListErrors_mem items 0 k s hget
      (@mem_check_redaction_uuid s
        ("source." ++ "paths" ++ "[" ++ toString (0 + k) ++ "]") huuid)
    unfold FixtureV.validate_source
    exact List.mem_append_left _
      (List.mem_append_right _ (sourceKeyPart_mem hk hm))
  · intro src items k s hk hget hhex
    rw [show k = 0 + k from (Nat.zero_add k).symm]
    have hm := sourceListErrors_mem items 0 k s hget
      (@mem_check_redaction_hex s
        ("source." ++ "command" ++ "[" ++ toString (0 + k) ++ "]") hhex)
    unfold FixtureV.validate_source
    exact List.mem_append_left _ (List.mem_append_left _
      (List.mem_append_right _ (sourceKeyPart_mem hk hm)))

/-- Witness for C7: the default `origin` string passes untouched, a
home path in `command[0]`, a UUID in `paths[0]` and a 32-character hex
token in `command[1]` each produce the labelled violation. -/
theorem claim_C7_witness :
    FixtureV.validate_source [("origin", JVal.str "manual")] = [] ∧
    Err.unredactedHome "source.command[0]" ∈
      FixtureV.validate_source
        [("origin", JVal.str "manual"),
         ("command", JVal.arr [JVal.str "/Users/alice/project"])] ∧
    Err.unredactedUuid "source.paths[0]" ∈
      FixtureV.validate_source
        [("origin", JVal.str "manual"),
         ("paths", JVal.arr
           [JVal.str "123e4567-e89b-12d3-a456-426614174000"])] ∧
    Err.unredactedHex "source.command[1]" ∈
      FixtureV.validate_source
        [("origin", JVal.str "manual"),
         ("command", JVal.arr [JVal.str "ls",
           JVal.str "0123456789abcdef0123456789abcdef"])] := by
  refine ⟨claim_C7_source_scan_coverage.1 "manual" (by decide),
    claim_C7_source_scan_coverage.2.1 _ _ 0 _ rfl rfl (by decide),
    claim_C7_source_scan_coverage.2.2.1 _ _ 0 _ rfl rfl (by decide),
    claim_C7_source_scan_coverage.2.2.2 _ _ 1 _ rfl rfl (by decide)⟩

end PT
